import Mathlib

/-!
Shallow embedding of the trackmymoney backend's storage core:
the `DatabaseManager` (connection registry, schema bootstrap, backup) from
`src/database/DatabaseManager.js`, the transaction route handlers from
`src/routes/transactions.js`, and the category route handlers from
`src/routes/categories.js`.

Modelling conventions:
* SQLite stores are modelled as in-memory `Shard` values held in the manager's
  `disk` map; a live handle is a numeric identifier in the `connections` map
  (handle identity is what the claims about caching need).
* The JS string key `` `${userId}_${year}` `` and the file name
  `user_<id>_<year>.db` are injective in `(userId, year)` for numeric inputs,
  so both maps are keyed by the pair `(userId, year)` directly.
* `Date.now()` / `CURRENT_TIMESTAMP` is the manager's `clock` field; the clock
  advances (strictly) at each `backupDatabase` call, modelling the
  millisecond clock moving between observed calls.
* Monetary amounts are `Rat` (the `DECIMAL(10,2)` column / JS numbers; every
  value exercised here is exactly representable).
* Request fields that may be absent are `Option`; JS falsiness of `0` and
  `""` is modelled explicitly where the code tests truthiness.
-/

namespace TrackMyMoney

/-! ## Association lists keyed by (userId, year) -/

/-- Lookup in an association list keyed by `(userId, year)`. -/
def lookupKey {α : Type} (k : Nat × Nat) : List ((Nat × Nat) × α) → Option α
  | [] => none
  | e :: es => if e.1 = k then some e.2 else lookupKey k es

/-- Set (replace-or-append) in an association list keyed by `(userId, year)`. -/
def setKey {α : Type} (k : Nat × Nat) (v : α) : List ((Nat × Nat) × α) → List ((Nat × Nat) × α)
  | [] => [(k, v)]
  | e :: es => if e.1 = k then (k, v) :: es else e :: setKey k v es

/-- Remove a key from an association list (`Map.delete`). -/
def removeKey {α : Type} (k : Nat × Nat) : List ((Nat × Nat) × α) → List ((Nat × Nat) × α)
  | [] => []
  | e :: es => if e.1 = k then removeKey k es else e :: removeKey k es

/-! ## Data model: dates, categories, transactions, shards -/

/-- A calendar date as carried in a transaction's `date` column
(`new Date(date).getFullYear()` reads `year`; `strftime` reads the parts). -/
structure Date where
  year : Nat
  month : Nat
  day : Nat
deriving DecidableEq, Repr

/-- A row of the `categories` table. `ctype` is the `type` column. -/
structure Category where
  id : Nat
  name : String
  ctype : String
  is_default : Bool
  created_at : Nat
  updated_at : Nat
deriving DecidableEq, Repr

/-- A row of the `transactions` table. `ttype` is the `type` column. -/
structure Txn where
  id : Nat
  amount : Rat
  date : Date
  ttype : String
  category_id : Nat
  description : String
  created_at : Nat
  updated_at : Nat
deriving DecidableEq, Repr

/-- One per-(user, year) SQLite database file. `tables` and `indexes` record
which `CREATE TABLE` / `CREATE INDEX` statements have taken effect; the
`next_*_id` counters model `AUTOINCREMENT`. -/
structure Shard where
  tables : List String
  indexes : List String
  categories : List Category
  transactions : List Txn
  next_category_id : Nat
  next_transaction_id : Nat
deriving DecidableEq, Repr

/-- A freshly created, empty database file. -/
def emptyShard : Shard :=
  { tables := [], indexes := [], categories := [], transactions := [],
    next_category_id := 1, next_transaction_id := 1 }

/-- The fourteen seed rows of the `INSERT OR IGNORE INTO categories` statement:
`(id, name, type)`, all inserted with `is_default = 1`. -/
def defaultCategorySeeds : List (Nat × String × String) :=
  [(1, "Monthly Fund", "income"),
   (2, "Special Fund", "income"),
   (3, "Donation", "income"),
   (4, "Personal Money", "income"),
   (5, "Bank Loan", "income"),
   (6, "Borrowed Money", "income"),
   (7, "Others", "income"),
   (8, "Employee Salary", "expense"),
   (9, "Foods & Treats", "expense"),
   (10, "Conveyances", "expense"),
   (11, "Purchase", "expense"),
   (12, "Rents", "expense"),
   (13, "Utility Bills", "expense"),
   (14, "Others", "expense")]

/-- `CREATE TABLE IF NOT EXISTS`. -/
def ensureTable (s : Shard) (t : String) : Shard :=
  if t ∈ s.tables then s else { s with tables := s.tables ++ [t] }

/-- `CREATE INDEX IF NOT EXISTS`. -/
def ensureIndex (s : Shard) (i : String) : Shard :=
  if i ∈ s.indexes then s else { s with indexes := s.indexes ++ [i] }

/-- The category row a seed tuple inserts: `is_default = 1`, timestamps from
`CURRENT_TIMESTAMP`. -/
def seedRow (now : Nat) (seed : Nat × String × String) : Category :=
  { id := seed.1, name := seed.2.1, ctype := seed.2.2, is_default := true,
    created_at := now, updated_at := now }

/-- `INSERT OR IGNORE INTO categories (id, name, type, is_default) VALUES (seed, 1)`:
inserts only when no row with the seed's fixed id exists; an explicit-id insert
bumps the `AUTOINCREMENT` counter past it. -/
def seedCategory (now : Nat) (s : Shard) (seed : Nat × String × String) : Shard :=
  if s.categories.any (fun c => c.id = seed.1) then s
  else
    { s with
      categories := s.categories ++ [seedRow now seed],
      next_category_id := max s.next_category_id (seed.1 + 1) }

/-- `DatabaseManager.initializeSchema`: the schema script run by `db.exec` —
both `CREATE TABLE IF NOT EXISTS` statements, the `INSERT OR IGNORE` seed
insert, and the four `CREATE INDEX IF NOT EXISTS` statements, in order. -/
def initializeSchema (now : Nat) (s : Shard) : Shard :=
  let s1 := ensureTable s "categories"
  let s2 := ensureTable s1 "transactions"
  let s3 := defaultCategorySeeds.foldl (seedCategory now) s2
  let s4 := ensureIndex s3 "idx_transactions_date"
  let s5 := ensureIndex s4 "idx_transactions_type"
  let s6 := ensureIndex s5 "idx_transactions_category"
  ensureIndex s6 "idx_categories_type"

/-! ## Decimal rendering (JS template-literal interpolation of numbers) -/

/-- Fuel-driven decimal digit list of a natural number, most significant first
(structural recursion so that concrete values reduce in the kernel). -/
def natCharsAux : Nat → Nat → List Char
  | 0, _ => []
  | fuel + 1, n =>
    if n < 10 then [Nat.digitChar n]
    else natCharsAux fuel (n / 10) ++ [Nat.digitChar (n % 10)]

/-- Decimal digit characters of `n`, most significant first. -/
def natChars (n : Nat) : List Char := natCharsAux (n + 1) n

/-- The decimal numeral of `n`, as a JS template literal renders a number. -/
def natStr (n : Nat) : String := ⟨natChars n⟩

/-- `DatabaseManager.getDbFileName`: `` `user_${userId}_${year}.db` ``. -/
def getDbFileName (userId year : Nat) : String :=
  "user_" ++ natStr userId ++ "_" ++ natStr year ++ ".db"

/-- The backup file name built by `backupDatabase`:
`` `backup_${getDbFileName(userId, year)}_${Date.now()}` ``. -/
def backupFileName (userId year stamp : Nat) : String :=
  "backup_" ++ getDbFileName userId year ++ "_" ++ natStr stamp

/-! ## The DatabaseManager singleton's state -/

/-- Process state of the `DatabaseManager` plus the file system it touches.
`connections` maps a shard key to the cached handle's identity; `disk` maps a
shard key to the content of its `.db` file (present iff the file exists);
`backups` records backup files written (name and copied content); `log` is the
`console.error` output; `clock` is the millisecond clock. -/
structure DBManager where
  connections : List ((Nat × Nat) × Nat)
  nextHandle : Nat
  disk : List ((Nat × Nat) × Shard)
  backups : List (String × Shard)
  log : List String
  clock : Nat
deriving DecidableEq, Repr

/-- The manager as constructed at process start: empty registry, no shard
files yet (the `databases` directory is created empty). -/
def initialManager : DBManager :=
  { connections := [], nextHandle := 1, disk := [], backups := [], log := [], clock := 1 }

/-- `DatabaseManager.getConnection`, with the possibility of the schema
`db.exec` callback receiving an error (`schemaFault = true`) made explicit.
Mirrors the source order: a cached handle is returned as-is; otherwise
`new sqlite3.Database(dbFile)` opens (creating the file if absent), the handle
is cached with `this.connections.set(key, db)`, and only then
`initializeSchema(db)` runs.  When `db.exec` fails, its callback only calls
`console.error`; no error reaches the caller and the handle stays cached. -/
def getConnectionF (m : DBManager) (userId year : Nat) (schemaFault : Bool) :
    DBManager × Nat :=
  match lookupKey (userId, year) m.connections with
  | some h => (m, h)
  | none =>
    let h := m.nextHandle
    let stored := (lookupKey (userId, year) m.disk).getD emptyShard
    let m1 : DBManager :=
      { m with connections := setKey (userId, year) h m.connections, nextHandle := h + 1 }
    if schemaFault then
      ({ m1 with disk := setKey (userId, year) stored m1.disk,
                 log := m1.log ++ ["Error initializing database schema"] }, h)
    else
      ({ m1 with disk := setKey (userId, year) (initializeSchema m1.clock stored) m1.disk }, h)

/-- `DatabaseManager.getConnection` in the fault-free run. -/
def getConnection (m : DBManager) (userId year : Nat) : DBManager × Nat :=
  getConnectionF m userId year false

/-- `DatabaseManager.closeConnection`: closes and evicts one cached handle
(the shard file stays on disk). -/
def closeConnection (m : DBManager) (userId year : Nat) : DBManager :=
  match lookupKey (userId, year) m.connections with
  | some _ => { m with connections := removeKey (userId, year) m.connections }
  | none => m

/-- `DatabaseManager.closeAllConnections`. -/
def closeAllConnections (m : DBManager) : DBManager :=
  { m with connections := [] }

/-- `DatabaseManager.backupDatabase`: if the shard's `.db` file exists, copy
the whole file to `` `backup_${file}_${Date.now()}` `` and return that name;
otherwise return `null` with no file operation.  The clock advances past the
observed `Date.now()` value. -/
def backupDatabase (m : DBManager) (userId year : Nat) : DBManager × Option String :=
  match lookupKey (userId, year) m.disk with
  | some sh =>
    let name := backupFileName userId year m.clock
    ({ m with backups := m.backups ++ [(name, sh)], clock := m.clock + 1 }, some name)
  | none => ({ m with clock := m.clock + 1 }, none)

/-! ## Orderings used by the SQL `ORDER BY` clauses -/

/-- Strict chronological order on dates (the order SQLite's string comparison
gives zero-padded `YYYY-MM-DD` date texts). -/
def Date.lexLt (a b : Date) : Prop :=
  a.year < b.year ∨ (a.year = b.year ∧
    (a.month < b.month ∨ (a.month = b.month ∧ a.day < b.day)))

instance (a b : Date) : Decidable (Date.lexLt a b) :=
  inferInstanceAs (Decidable (_ ∨ _))

/-- `ORDER BY t.date DESC, t.id DESC`: `a` sorts no later than `b`. -/
def txnBefore (a b : Txn) : Prop :=
  Date.lexLt b.date a.date ∨ (b.date = a.date ∧ b.id ≤ a.id)

instance (a b : Txn) : Decidable (txnBefore a b) :=
  inferInstanceAs (Decidable (_ ∨ _))

instance : IsTotal Txn txnBefore :=
  ⟨fun a b => by
    obtain ⟨_, _, ⟨y1, m1, d1⟩, _, _, _, _, _⟩ := a
    obtain ⟨_, _, ⟨y2, m2, d2⟩, _, _, _, _, _⟩ := b
    simp only [txnBefore, Date.lexLt, Date.mk.injEq]
    omega⟩

instance : IsTrans Txn txnBefore :=
  ⟨fun a b c h1 h2 => by
    obtain ⟨_, _, ⟨y1, m1, d1⟩, _, _, _, _, _⟩ := a
    obtain ⟨_, _, ⟨y2, m2, d2⟩, _, _, _, _, _⟩ := b
    obtain ⟨_, _, ⟨y3, m3, d3⟩, _, _, _, _, _⟩ := c
    simp only [txnBefore, Date.lexLt, Date.mk.injEq] at h1 h2 ⊢
    omega⟩

/-- `ORDER BY type, name` on categories. -/
def catBefore (a b : Category) : Prop :=
  a.ctype < b.ctype ∨ (a.ctype = b.ctype ∧ a.name ≤ b.name)

instance (a b : Category) : Decidable (catBefore a b) :=
  inferInstanceAs (Decidable (_ ∨ _))

instance : IsTotal Category catBefore :=
  ⟨fun a b => by
    rcases lt_trichotomy a.ctype b.ctype with h | h | h
    · exact Or.inl (Or.inl h)
    · rcases le_total a.name b.name with h' | h'
      · exact Or.inl (Or.inr ⟨h, h'⟩)
      · exact Or.inr (Or.inr ⟨h.symm, h'⟩)
    · exact Or.inr (Or.inl h)⟩

instance : IsTrans Category catBefore :=
  ⟨fun a b c h1 h2 => by
    rcases h1 with h1 | ⟨h1, h1'⟩
    · rcases h2 with h2 | ⟨h2, _⟩
      · exact Or.inl (h1.trans h2)
      · exact Or.inl (h2 ▸ h1)
    · rcases h2 with h2 | ⟨h2, h2'⟩
      · exact Or.inl (h1 ▸ h2)
      · exact Or.inr ⟨h1.trans h2, h1'.trans h2'⟩⟩

/-! ## Category route handlers (`src/routes/categories.js`), per shard -/

/-- The JSON shape of a category sent to the client
(`isDefault` is `cat.is_default === 1`). -/
structure CategoryRow where
  id : Nat
  name : String
  ctype : String
  isDefault : Bool
  createdAt : Nat
  updatedAt : Nat
deriving DecidableEq, Repr

/-- Render one `categories` row for a response. -/
def categoryRow (c : Category) : CategoryRow :=
  { id := c.id, name := c.name, ctype := c.ctype, isDefault := c.is_default,
    createdAt := c.created_at, updatedAt := c.updated_at }

/-- `GET /` on categories: `SELECT * FROM categories ORDER BY type, name`. -/
def listCategories (s : Shard) : List CategoryRow :=
  (s.categories.insertionSort catBefore).map categoryRow

/-- Outcome of `PUT /:id` on categories. -/
inductive RenameCatResult
  | badRequest (msg : String)
  | notFound
  | ok (row : CategoryRow)
  | fetchFailed
deriving DecidableEq, Repr

/-- `PUT /:id` on categories, against the resolved shard: reject a missing
name (400); run `UPDATE categories SET name = ?, updated_at = CURRENT_TIMESTAMP
WHERE id = ?`; report 404 when no row changed; otherwise re-read the row.
There is no `is_default` guard on this path. -/
def renameCategory (s : Shard) (catId : Nat) (name : Option String) (now : Nat) :
    Shard × RenameCatResult :=
  let nm := name.getD ""
  if nm = "" then (s, .badRequest "Name is required")
  else
    let changes := s.categories.countP (fun c => c.id = catId)
    let s1 := { s with categories := s.categories.map (fun c =>
      if c.id = catId then { c with name := nm, updated_at := now } else c) }
    if changes = 0 then (s1, .notFound)
    else
      match s1.categories.find? (fun c => c.id = catId) with
      | some c => (s1, .ok (categoryRow c))
      | none => (s1, .fetchFailed)

/-- Outcome of `DELETE /:id` on categories.  `notFound` is the 404 response;
`conflictDefault` the 400 "Cannot delete default categories"; `conflictInUse n`
the 400 "Cannot delete category. It is used in n transaction(s)". -/
inductive DeleteCatResult
  | notFound
  | conflictDefault
  | conflictInUse (count : Nat)
  | deleted
deriving DecidableEq, Repr

/-- `DELETE /:id` on categories, against the resolved shard: look the row up
(404 if absent), refuse default rows, count referencing transactions in the
same shard and refuse when the count is positive, else delete. -/
def deleteCategory (s : Shard) (catId : Nat) : Shard × DeleteCatResult :=
  match s.categories.find? (fun c => c.id = catId) with
  | none => (s, .notFound)
  | some c =>
    if c.is_default then (s, .conflictDefault)
    else
      let count := s.transactions.countP (fun t => t.category_id = catId)
      if 0 < count then (s, .conflictInUse count)
      else ({ s with categories := s.categories.filter (fun c2 => decide (c2.id ≠ catId)) },
            .deleted)

/-! ## Transaction route handlers (`src/routes/transactions.js`) -/

/-- The JSON shape of a transaction row joined with its category
(`LEFT JOIN categories c ON t.category_id = c.id`). -/
structure TxnRow where
  id : Nat
  amount : Rat
  date : Date
  ttype : String
  categoryId : Nat
  categoryName : Option String
  description : String
  createdAt : Nat
  updatedAt : Nat
deriving DecidableEq, Repr

/-- Join one transaction with its category's name, as the `LEFT JOIN`
selects do (`categoryName` is null when the category id dangles). -/
def joinRow (s : Shard) (t : Txn) : TxnRow :=
  { id := t.id, amount := t.amount, date := t.date, ttype := t.ttype,
    categoryId := t.category_id,
    categoryName := (s.categories.find? (fun c => c.id = t.category_id)).map (fun c => c.name),
    description := t.description, createdAt := t.created_at, updatedAt := t.updated_at }

/-- The shard's transactions in response order:
`ORDER BY t.date DESC, t.id DESC`. -/
def sortedTransactions (s : Shard) : List Txn :=
  s.transactions.insertionSort txnBefore

/-- `parseInt(q) || dflt`: an absent or non-numeric query parameter parses to
`NaN`, and both `NaN` and `0` fall back to the default. -/
def queryParam (q : Option Nat) (dflt : Nat) : Nat :=
  match q with
  | none => dflt
  | some 0 => dflt
  | some n => n

/-- The paginated response of `GET /` on transactions. -/
structure TxnPage where
  data : List TxnRow
  currentPage : Nat
  totalPages : Nat
  totalCount : Nat
  hasNextPage : Bool
  hasPrevPage : Bool
deriving DecidableEq, Repr

/-- `GET /` on transactions: count, then
`SELECT ... ORDER BY t.date DESC, t.id DESC LIMIT ? OFFSET ?` with
`offset = (page - 1) * limit`, `totalPages = Math.ceil(totalCount / limit)`,
`hasNextPage = page < totalPages`, `hasPrevPage = page > 1`. -/
def listTransactions (s : Shard) (pageQ limitQ : Option Nat) : TxnPage :=
  let page := queryParam pageQ 1
  let limit := queryParam limitQ 50
  let offset := (page - 1) * limit
  let totalCount := s.transactions.length
  let totalPages := (totalCount + limit - 1) / limit
  { data := (((sortedTransactions s).drop offset).take limit).map (joinRow s),
    currentPage := page, totalPages := totalPages, totalCount := totalCount,
    hasNextPage := decide (page < totalPages), hasPrevPage := decide (1 < page) }

/-- `COALESCE(SUM(amount), 0)` over a selection of rows. -/
def sumAmounts (ts : List Txn) : Rat := (ts.map (fun t => t.amount)).sum

/-- Two-digit zero-padded rendering (`strftime('%m')`). -/
def pad2 (n : Nat) : String := if n < 10 then "0" ++ natStr n else natStr n

/-- Four-digit zero-padded rendering (`strftime('%Y')`). -/
def pad4 (n : Nat) : String :=
  if n < 10 then "000" ++ natStr n
  else if n < 100 then "00" ++ natStr n
  else if n < 1000 then "0" ++ natStr n
  else natStr n

/-- `strftime('%Y-%m', date)`. -/
def monthKey (d : Date) : String := pad4 d.year ++ "-" ++ pad2 d.month

/-- Byte-wise lexicographic comparison of character lists (the order SQLite's
`ORDER BY` puts text values in). -/
def charsLe : List Char → List Char → Bool
  | [], _ => true
  | _ :: _, [] => false
  | a :: as, b :: bs =>
    if a.toNat < b.toNat then true
    else if b.toNat < a.toNat then false
    else charsLe as bs

/-- Lexicographic text order, as `ORDER BY month` sorts the key strings. -/
def strLe (a b : String) : Prop := charsLe a.data b.data = true

instance (a b : String) : Decidable (strLe a b) :=
  inferInstanceAs (Decidable (_ = true))

instance : IsTotal String strLe :=
  ⟨fun a b => by
    show charsLe a.data b.data = true ∨ charsLe b.data a.data = true
    generalize a.data = l1, b.data = l2
    induction l1 generalizing l2 with
    | nil => exact Or.inl rfl
    | cons x xs ih =>
      cases l2 with
      | nil => exact Or.inr rfl
      | cons y ys =>
        by_cases hxy : x.toNat < y.toNat
        · exact Or.inl (by simp [charsLe, hxy])
        · by_cases hyx : y.toNat < x.toNat
          · exact Or.inr (by simp [charsLe, hyx])
          · rcases ih ys with h | h
            · exact Or.inl (by simp [charsLe, hxy, hyx, h])
            · exact Or.inr (by simp [charsLe, hxy, hyx, h])⟩

instance : IsTrans String strLe :=
  ⟨fun a b c h1 h2 => by
    show charsLe a.data c.data = true
    rw [strLe] at h1 h2
    generalize a.data = l1 at *
    generalize b.data = l2 at *
    generalize c.data = l3 at *
    induction l1 generalizing l2 l3 with
    | nil => rfl
    | cons x xs ih =>
      cases l2 with
      | nil => simp [charsLe] at h1
      | cons y ys =>
        cases l3 with
        | nil => simp [charsLe] at h2
        | cons z zs =>
          rw [charsLe] at h1 h2 ⊢
          split at h1
          · rename_i hxy
            split at h2
            · rename_i hyz
              rw [if_pos (hxy.trans hyz)]
            · split at h2
              · exact absurd h2 (by simp)
              · rename_i hyz hzy
                have hyz2 : y.toNat = z.toNat := by omega
                rw [if_pos (hyz2 ▸ hxy)]
          · split at h1
            · exact absurd h1 (by simp)
            · rename_i hxy hyx
              have hxy2 : x.toNat = y.toNat := by omega
              split at h2
              · rename_i hyz
                rw [if_pos (hxy2 ▸ hyz)]
              · split at h2
                · exact absurd h2 (by simp)
                · rename_i hyz hzy
                  rw [if_neg (by omega), if_neg (by omega)]
                  exact ih _ h1 _ h2⟩

/-- The distinct month keys of the requested year present in the shard, in
ascending order (`GROUP BY strftime('%Y-%m', date) ... ORDER BY month`). -/
def monthKeys (s : Shard) (year : Nat) : List String :=
  (((s.transactions.filter (fun t => decide (t.date.year = year))).map
      (fun t => monthKey t.date)).dedup).insertionSort strLe

/-- The `monthlyStats` object built by the stats route: for each month key of
the requested year, the summed income and expense amounts (a field missing
from every group row stays at its `{ income: 0, expenses: 0 }` initial). -/
def monthlyStats (s : Shard) (year : Nat) : List (String × Rat × Rat) :=
  (monthKeys s year).map (fun mk =>
    (mk,
     sumAmounts (s.transactions.filter (fun t =>
       decide (t.date.year = year) && decide (monthKey t.date = mk) && (t.ttype == "income"))),
     sumAmounts (s.transactions.filter (fun t =>
       decide (t.date.year = year) && decide (monthKey t.date = mk) && (t.ttype == "expense")))))

/-- The body of the `GET /stats` response. -/
structure StatsResult where
  totalIncome : Rat
  totalExpenses : Rat
  transactionCount : Nat
  netBalance : Rat
  monthlyStats : List (String × Rat × Rat)
deriving DecidableEq, Repr

/-- `GET /stats`: the four aggregate queries plus the monthly bucket map;
`netBalance = totalIncome - totalExpenses`. -/
def getStats (s : Shard) (year : Nat) : StatsResult :=
  let totalIncome := sumAmounts (s.transactions.filter (fun t => t.ttype == "income"))
  let totalExpenses := sumAmounts (s.transactions.filter (fun t => t.ttype == "expense"))
  { totalIncome := totalIncome, totalExpenses := totalExpenses,
    transactionCount := s.transactions.length,
    netBalance := totalIncome - totalExpenses,
    monthlyStats := monthlyStats s year }

/-- Reading `monthlyStats[month]` with the response consumer's convention that
a missing bucket means zero income and zero expenses. -/
def monthLookup (st : StatsResult) (mk : String) : Rat × Rat :=
  (st.monthlyStats.lookup mk).getD (0, 0)

/-- Outcome of `POST /` on transactions. -/
inductive CreateTxnResult
  | badRequest (msg : String)
  | created (row : TxnRow)
deriving DecidableEq, Repr

/-- The transactions currently stored in shard `(userId, year)` (empty when
the shard file does not exist). -/
def txnsOf (m : DBManager) (userId year : Nat) : List Txn :=
  ((lookupKey (userId, year) m.disk).getD emptyShard).transactions

/-- `POST /` on transactions: the three request validations run before any
storage call; the shard is resolved from `new Date(date).getFullYear()`; the
category must resolve in that shard; then the row is inserted and re-read
joined with its category. -/
def createTransaction (m : DBManager) (userId : Nat) (amount : Option Rat)
    (date : Option Date) (ttype : Option String) (categoryId : Option Nat)
    (description : Option String) : DBManager × CreateTxnResult :=
  match date, ttype, categoryId with
  | some d, some ty, some cid =>
    let amt := amount.getD 0
    if amt = 0 ∨ ty = "" ∨ cid = 0 then
      (m, .badRequest "Amount, date, type, and category are required")
    else if ¬ (ty = "income" ∨ ty = "expense") then
      (m, .badRequest "Type must be income or expense")
    else if amt ≤ 0 then
      (m, .badRequest "Amount must be greater than 0")
    else
      let m1 := (getConnection m userId d.year).1
      let sh := (lookupKey (userId, d.year) m1.disk).getD emptyShard
      match sh.categories.find? (fun c => c.id = cid) with
      | none => (m1, .badRequest "Invalid category")
      | some _ =>
        let t : Txn :=
          { id := sh.next_transaction_id, amount := amt, date := d, ttype := ty,
            category_id := cid, description := description.getD "",
            created_at := m1.clock, updated_at := m1.clock }
        let sh1 := { sh with transactions := sh.transactions ++ [t],
                             next_transaction_id := sh.next_transaction_id + 1 }
        let m2 := { m1 with disk := setKey (userId, d.year) sh1 m1.disk }
        let t2 := (sh1.transactions.find? (fun x => x.id = t.id)).getD t
        (m2, .created (joinRow sh1 t2))
  | _, _, _ => (m, .badRequest "Amount, date, type, and category are required")

/-- Outcome of `PUT /:id` on transactions. -/
inductive UpdateTxnResult
  | badRequest (msg : String)
  | notFound
  | updated (row : TxnRow)
  | fetchFailed
deriving DecidableEq, Repr

/-- `PUT /:id` on transactions.  Same required-field and positivity checks as
create — but no `income`/`expense` enum re-check — then the shard is resolved
from the new date's year, the category must resolve there, the `UPDATE ...
WHERE id` runs, `this.changes === 0` yields 404, else the row is re-read. -/
def updateTransaction (m : DBManager) (userId txnId : Nat) (amount : Option Rat)
    (date : Option Date) (ttype : Option String) (categoryId : Option Nat)
    (description : Option String) : DBManager × UpdateTxnResult :=
  match date, ttype, categoryId with
  | some d, some ty, some cid =>
    let amt := amount.getD 0
    if amt = 0 ∨ ty = "" ∨ cid = 0 then
      (m, .badRequest "Amount, date, type, and category are required")
    else if amt ≤ 0 then
      (m, .badRequest "Amount must be greater than 0")
    else
      let m1 := (getConnection m userId d.year).1
      let sh := (lookupKey (userId, d.year) m1.disk).getD emptyShard
      match sh.categories.find? (fun c => c.id = cid) with
      | none => (m1, .badRequest "Invalid category")
      | some _ =>
        let changes := sh.transactions.countP (fun t => t.id = txnId)
        let sh1 := { sh with transactions := sh.transactions.map (fun t =>
          if t.id = txnId then
            { t with amount := amt, date := d, ttype := ty, category_id := cid,
                     description := description.getD "", updated_at := m1.clock }
          else t) }
        let m2 := { m1 with disk := setKey (userId, d.year) sh1 m1.disk }
        if changes = 0 then (m2, .notFound)
        else
          match sh1.transactions.find? (fun t => t.id = txnId) with
          | some t => (m2, .updated (joinRow sh1 t))
          | none => (m2, .fetchFailed)
  | _, _, _ => (m, .badRequest "Amount, date, type, and category are required")

/-- Outcome of `DELETE /:id` on transactions. -/
inductive DeleteTxnResult
  | notFound
  | deleted
deriving DecidableEq, Repr

/-- `DELETE /:id` on transactions: the shard comes from the query-string year
(or the current year); `this.changes === 0` yields 404. -/
def deleteTransaction (m : DBManager) (userId year txnId : Nat) :
    DBManager × DeleteTxnResult :=
  let m1 := (getConnection m userId year).1
  let sh := (lookupKey (userId, year) m1.disk).getD emptyShard
  let changes := sh.transactions.countP (fun t => t.id = txnId)
  let sh1 := { sh with transactions := sh.transactions.filter (fun t => decide (t.id ≠ txnId)) }
  let m2 := { m1 with disk := setKey (userId, year) sh1 m1.disk }
  if changes = 0 then (m2, .notFound) else (m2, .deleted)

/-- Outcome of `POST /` on categories. -/
inductive CreateCatResult
  | badRequest (msg : String)
  | created (row : CategoryRow)
deriving DecidableEq, Repr

/-- `POST /` on categories: validation before the connection opens, then an
insert with `is_default = 0` and a re-read of the generated row. -/
def createCategoryRoute (m : DBManager) (userId year : Nat) (name ctype : Option String) :
    DBManager × CreateCatResult :=
  let nm := name.getD ""
  let ty := ctype.getD ""
  if nm = "" ∨ ty = "" then (m, .badRequest "Name and type are required")
  else if ¬ (ty = "income" ∨ ty = "expense") then
    (m, .badRequest "Type must be income or expense")
  else
    let m1 := (getConnection m userId year).1
    let sh := (lookupKey (userId, year) m1.disk).getD emptyShard
    let c : Category :=
      { id := sh.next_category_id, name := nm, ctype := ty, is_default := false,
        created_at := m1.clock, updated_at := m1.clock }
    let sh1 := { sh with categories := sh.categories ++ [c],
                         next_category_id := sh.next_category_id + 1 }
    let m2 := { m1 with disk := setKey (userId, year) sh1 m1.disk }
    let c2 := (sh1.categories.find? (fun x => x.id = c.id)).getD c
    (m2, .created (categoryRow c2))

/-- `PUT /:id` on categories at the manager level: the name check precedes the
connection open; the shard comes from the query-string year. -/
def renameCategoryRoute (m : DBManager) (userId year catId : Nat) (name : Option String) :
    DBManager × RenameCatResult :=
  if name.getD "" = "" then (m, .badRequest "Name is required")
  else
    let m1 := (getConnection m userId year).1
    let sh := (lookupKey (userId, year) m1.disk).getD emptyShard
    let r := renameCategory sh catId name m1.clock
    ({ m1 with disk := setKey (userId, year) r.1 m1.disk }, r.2)

/-- `DELETE /:id` on categories at the manager level. -/
def deleteCategoryRoute (m : DBManager) (userId year catId : Nat) :
    DBManager × DeleteCatResult :=
  let m1 := (getConnection m userId year).1
  let sh := (lookupKey (userId, year) m1.disk).getD emptyShard
  let r := deleteCategory sh catId
  ({ m1 with disk := setKey (userId, year) r.1 m1.disk }, r.2)

/-! ## Reachable states -/

/-- One inbound operation against the storage core. -/
inductive Op where
  | getConn (u y : Nat)
  | closeConn (u y : Nat)
  | closeAll
  | createTxn (u : Nat) (amount : Option Rat) (date : Option Date)
      (ttype : Option String) (categoryId : Option Nat) (description : Option String)
  | updateTxn (u txnId : Nat) (amount : Option Rat) (date : Option Date)
      (ttype : Option String) (categoryId : Option Nat) (description : Option String)
  | deleteTxn (u y txnId : Nat)
  | createCat (u y : Nat) (name ctype : Option String)
  | renameCat (u y catId : Nat) (name : Option String)
  | deleteCat (u y catId : Nat)
  | backup (u y : Nat)

/-- The state transition of one operation. -/
def applyOp (m : DBManager) : Op → DBManager
  | .getConn u y => (getConnection m u y).1
  | .closeConn u y => closeConnection m u y
  | .closeAll => closeAllConnections m
  | .createTxn u a d ty c desc => (createTransaction m u a d ty c desc).1
  | .updateTxn u i a d ty c desc => (updateTransaction m u i a d ty c desc).1
  | .deleteTxn u y i => (deleteTransaction m u y i).1
  | .createCat u y n ty => (createCategoryRoute m u y n ty).1
  | .renameCat u y i n => (renameCategoryRoute m u y i n).1
  | .deleteCat u y i => (deleteCategoryRoute m u y i).1
  | .backup u y => (backupDatabase m u y).1

/-- Run a sequence of operations. -/
def run (m : DBManager) (ops : List Op) : DBManager := ops.foldl applyOp m

/-! ## Specification predicates and demonstration states -/

/-- The schema objects `initializeSchema` is responsible for: both tables,
the fourteen seed rows (by their fixed ids), and the four indexes. -/
def schemaPresent (s : Shard) : Prop :=
  "categories" ∈ s.tables ∧ "transactions" ∈ s.tables ∧
  (∀ seed ∈ defaultCategorySeeds, ∃ c ∈ s.categories, c.id = seed.1) ∧
  "idx_transactions_date" ∈ s.indexes ∧ "idx_transactions_type" ∈ s.indexes ∧
  "idx_transactions_category" ∈ s.indexes ∧ "idx_categories_type" ∈ s.indexes

/-- Registry well-formedness: every cached handle was allocated below the
`nextHandle` counter.  It holds at process start and is preserved by every
operation. -/
def HandleWF (m : DBManager) : Prop :=
  ∀ e ∈ m.connections, e.2 < m.nextHandle

/-- The sharding invariant: every transaction stored in shard
`(userId, year)` is dated in calendar year `year`. -/
def ShardYearInv (m : DBManager) : Prop :=
  ∀ e ∈ m.disk, ∀ t ∈ e.2.transactions, t.date.year = e.1.2

/-- A shard freshly bootstrapped at clock 0 (as the first `getConnection`
against a missing file produces, up to the seed timestamps). -/
def seededShard : Shard := initializeSchema 0 emptyShard

/-- A user-created (non-default) category used in demonstrations. -/
def demoCategory : Category :=
  { id := 15, name := "Gifts", ctype := "expense", is_default := false,
    created_at := 0, updated_at := 0 }

/-- A seeded shard plus one user-created category. -/
def catDemoShard : Shard :=
  { seededShard with categories := seededShard.categories ++ [demoCategory],
                     next_category_id := 16 }

/-- A shard holding five transactions, for the pagination example. -/
def pageDemo : Shard :=
  { emptyShard with
    transactions :=
      [{ id := 1, amount := 10, date := ⟨2024, 1, 5⟩, ttype := "income",
         category_id := 1, description := "", created_at := 0, updated_at := 0 },
       { id := 2, amount := 20, date := ⟨2024, 2, 6⟩, ttype := "expense",
         category_id := 8, description := "", created_at := 0, updated_at := 0 },
       { id := 3, amount := 30, date := ⟨2024, 2, 6⟩, ttype := "income",
         category_id := 2, description := "", created_at := 0, updated_at := 0 },
       { id := 4, amount := 40, date := ⟨2024, 3, 7⟩, ttype := "expense",
         category_id := 9, description := "", created_at := 0, updated_at := 0 },
       { id := 5, amount := 50, date := ⟨2024, 4, 8⟩, ttype := "income",
         category_id := 3, description := "", created_at := 0, updated_at := 0 }],
    next_transaction_id := 6 }

/-- A shard holding one March-2024 income of 500 and one March-2024 expense
of 200, for the statistics example. -/
def statsDemo : Shard :=
  { emptyShard with
    transactions :=
      [{ id := 1, amount := 500, date := ⟨2024, 3, 10⟩, ttype := "income",
         category_id := 1, description := "", created_at := 0, updated_at := 0 },
       { id := 2, amount := 200, date := ⟨2024, 3, 20⟩, ttype := "expense",
         category_id := 9, description := "", created_at := 0, updated_at := 0 }],
    next_transaction_id := 3 }

/-! ## Association-list lemmas -/

theorem lookupKey_setKey_self {α : Type} (k : Nat × Nat) (v : α)
    (l : List ((Nat × Nat) × α)) : lookupKey k (setKey k v l) = some v := by
  induction l with
  | nil => simp [setKey, lookupKey]
  | cons e es ih =>
    by_cases h : e.1 = k
    · simp [setKey, h, lookupKey]
    · simp [setKey, h, lookupKey, ih]

theorem lookupKey_setKey_ne {α : Type} (k k' : Nat × Nat) (v : α)
    (l : List ((Nat × Nat) × α)) (hne : k' ≠ k) :
    lookupKey k' (setKey k v l) = lookupKey k' l := by
  have hk : k ≠ k' := Ne.symm hne
  induction l with
  | nil => simp [setKey, lookupKey, hk]
  | cons e es ih =>
    by_cases h : e.1 = k
    · simp [setKey, h, lookupKey, hk]
    · simp [setKey, h, lookupKey, ih]

theorem lookupKey_removeKey_self {α : Type} (k : Nat × Nat)
    (l : List ((Nat × Nat) × α)) : lookupKey k (removeKey k l) = none := by
  induction l with
  | nil => simp [removeKey, lookupKey]
  | cons e es ih =>
    by_cases h : e.1 = k
    · simp [removeKey, h, ih]
    · simp [removeKey, h, lookupKey, ih]

theorem mem_setKey {α : Type} {k : Nat × Nat} {v : α} {e : (Nat × Nat) × α}
    {l : List ((Nat × Nat) × α)} (he : e ∈ setKey k v l) : e = (k, v) ∨ e ∈ l := by
  induction l with
  | nil => simpa [setKey] using he
  | cons e' es ih =>
    by_cases h : e'.1 = k
    · rcases (by simpa [setKey, h] using he) with h' | h'
      · exact Or.inl h'
      · exact Or.inr (List.mem_cons_of_mem _ h')
    · rcases (by simpa [setKey, h] using he) with h' | h'
      · exact Or.inr (by simp [h'])
      · rcases ih h' with h'' | h''
        · exact Or.inl h''
        · exact Or.inr (List.mem_cons_of_mem _ h'')

theorem lookupKey_mem {α : Type} {k : Nat × Nat} {v : α}
    {l : List ((Nat × Nat) × α)} (h : lookupKey k l = some v) : (k, v) ∈ l := by
  induction l with
  | nil => simp [lookupKey] at h
  | cons e es ih =>
    by_cases h' : e.1 = k
    · rw [lookupKey, if_pos h'] at h
      obtain ⟨k1, v1⟩ := e
      cases h'
      cases h
      exact List.mem_cons_self _ _
    · rw [lookupKey, if_neg h'] at h
      exact List.mem_cons_of_mem _ (ih h)

/-! ## Schema bootstrap lemmas -/

theorem ensureTable_mem (s : Shard) (t : String) : t ∈ (ensureTable s t).tables := by
  unfold ensureTable; split
  · assumption
  · simp

theorem ensureTable_mem_sub {s : Shard} {x : String} (h : x ∈ s.tables) (t : String) :
    x ∈ (ensureTable s t).tables := by
  unfold ensureTable; split
  · exact h
  · simp [h]

theorem ensureTable_noop {s : Shard} {t : String} (h : t ∈ s.tables) : ensureTable s t = s := by
  unfold ensureTable; rw [if_pos h]

theorem ensureTable_categories (s : Shard) (t : String) :
    (ensureTable s t).categories = s.categories := by
  unfold ensureTable; split <;> rfl

theorem ensureTable_transactions (s : Shard) (t : String) :
    (ensureTable s t).transactions = s.transactions := by
  unfold ensureTable; split <;> rfl

theorem ensureTable_indexes (s : Shard) (t : String) :
    (ensureTable s t).indexes = s.indexes := by
  unfold ensureTable; split <;> rfl

theorem ensureIndex_mem (s : Shard) (i : String) : i ∈ (ensureIndex s i).indexes := by
  unfold ensureIndex; split
  · assumption
  · simp

theorem ensureIndex_mem_sub {s : Shard} {x : String} (h : x ∈ s.indexes) (i : String) :
    x ∈ (ensureIndex s i).indexes := by
  unfold ensureIndex; split
  · exact h
  · simp [h]

theorem ensureIndex_noop {s : Shard} {i : String} (h : i ∈ s.indexes) : ensureIndex s i = s := by
  unfold ensureIndex; rw [if_pos h]

theorem ensureIndex_categories (s : Shard) (i : String) :
    (ensureIndex s i).categories = s.categories := by
  unfold ensureIndex; split <;> rfl

theorem ensureIndex_transactions (s : Shard) (i : String) :
    (ensureIndex s i).transactions = s.transactions := by
  unfold ensureIndex; split <;> rfl

theorem ensureIndex_tables (s : Shard) (i : String) :
    (ensureIndex s i).tables = s.tables := by
  unfold ensureIndex; split <;> rfl

theorem seedCategory_transactions (now : Nat) (s : Shard) (seed : Nat × String × String) :
    (seedCategory now s seed).transactions = s.transactions := by
  unfold seedCategory; split <;> rfl

theorem seedCategory_tables (now : Nat) (s : Shard) (seed : Nat × String × String) :
    (seedCategory now s seed).tables = s.tables := by
  unfold seedCategory; split <;> rfl

theorem seedCategory_indexes (now : Nat) (s : Shard) (seed : Nat × String × String) :
    (seedCategory now s seed).indexes = s.indexes := by
  unfold seedCategory; split <;> rfl

theorem seedCategory_mem_sub {s : Shard} {c : Category} (h : c ∈ s.categories)
    (now : Nat) (seed : Nat × String × String) : c ∈ (seedCategory now s seed).categories := by
  unfold seedCategory; split
  · exact h
  · simp [h]

theorem seedCategory_id_present (now : Nat) (s : Shard) (seed : Nat × String × String) :
    ∃ c ∈ (seedCategory now s seed).categories, c.id = seed.1 := by
  unfold seedCategory; split
  · rename_i h
    rcases List.any_eq_true.mp h with ⟨c, hc, hid⟩
    exact ⟨c, hc, by simpa using hid⟩
  · exact ⟨seedRow now seed, by simp, rfl⟩

theorem seedCategory_noop {now : Nat} {s : Shard} {seed : Nat × String × String}
    (h : ∃ c ∈ s.categories, c.id = seed.1) : seedCategory now s seed = s := by
  unfold seedCategory
  rw [if_pos (List.any_eq_true.mpr (by rcases h with ⟨c, hc, hid⟩; exact ⟨c, hc, by simpa using hid⟩))]

theorem foldl_seed_transactions (now : Nat) :
    ∀ (L : List (Nat × String × String)) (s : Shard),
      (L.foldl (seedCategory now) s).transactions = s.transactions := by
  intro L
  induction L with
  | nil => intro s; rfl
  | cons seed L ih => intro s; rw [List.foldl_cons, ih, seedCategory_transactions]

theorem foldl_seed_tables (now : Nat) :
    ∀ (L : List (Nat × String × String)) (s : Shard),
      (L.foldl (seedCategory now) s).tables = s.tables := by
  intro L
  induction L with
  | nil => intro s; rfl
  | cons seed L ih => intro s; rw [List.foldl_cons, ih, seedCategory_tables]

theorem foldl_seed_indexes (now : Nat) :
    ∀ (L : List (Nat × String × String)) (s : Shard),
      (L.foldl (seedCategory now) s).indexes = s.indexes := by
  intro L
  induction L with
  | nil => intro s; rfl
  | cons seed L ih => intro s; rw [List.foldl_cons, ih, seedCategory_indexes]

theorem foldl_seed_mem_sub (now : Nat) :
    ∀ (L : List (Nat × String × String)) (s : Shard) (c : Category),
      c ∈ s.categories → c ∈ (L.foldl (seedCategory now) s).categories := by
  intro L
  induction L with
  | nil => intro s c h; exact h
  | cons seed L ih =>
    intro s c h
    rw [List.foldl_cons]
    exact ih _ _ (seedCategory_mem_sub h now seed)

theorem foldl_seed_ids_present (now : Nat) :
    ∀ (L : List (Nat × String × String)) (s : Shard) (seed : Nat × String × String),
      seed ∈ L → ∃ c ∈ (L.foldl (seedCategory now) s).categories, c.id = seed.1 := by
  intro L
  induction L with
  | nil => intro s seed h; simp at h
  | cons seed0 L ih =>
    intro s seed h
    rw [List.foldl_cons]
    rcases List.mem_cons.mp h with h | h
    · subst h
      rcases seedCategory_id_present now s seed with ⟨c, hc, hid⟩
      exact ⟨c, foldl_seed_mem_sub now L _ c hc, hid⟩
    · exact ih _ seed h

theorem foldl_seed_noop (now : Nat) :
    ∀ (L : List (Nat × String × String)) (s : Shard),
      (∀ seed ∈ L, ∃ c ∈ s.categories, c.id = seed.1) →
      L.foldl (seedCategory now) s = s := by
  intro L
  induction L with
  | nil => intro s _; rfl
  | cons seed L ih =>
    intro s h
    rw [List.foldl_cons, seedCategory_noop (h seed (by simp))]
    exact ih s (fun sd hsd => h sd (by simp [hsd]))

theorem foldl_seed_fresh (now : Nat) :
    ∀ (L : List (Nat × String × String)) (s : Shard),
      (∀ seed ∈ L, ∀ c ∈ s.categories, c.id ≠ seed.1) →
      L.Pairwise (fun a b => a.1 ≠ b.1) →
      (L.foldl (seedCategory now) s).categories = s.categories ++ L.map (seedRow now) := by
  intro L
  induction L with
  | nil => intro s _ _; simp
  | cons seed L ih =>
    intro s hfresh hpw
    rw [List.foldl_cons]
    have hany : ¬ (s.categories.any fun c => decide (c.id = seed.1)) = true := by
      intro hany
      rcases List.any_eq_true.mp hany with ⟨c, hc, hid⟩
      exact hfresh seed (by simp) c hc (by simpa using hid)
    have hstep : (seedCategory now s seed).categories = s.categories ++ [seedRow now seed] := by
      unfold seedCategory
      rw [if_neg hany]
    have hpw' := List.pairwise_cons.mp hpw
    rw [ih (seedCategory now s seed) ?_ hpw'.2, hstep, List.append_assoc]
    · simp
    · intro sd hsd c hc
      rw [hstep] at hc
      rcases List.mem_append.mp hc with hc | hc
      · exact hfresh sd (by simp [hsd]) c hc
      · rw [List.mem_singleton.mp hc]
        exact hpw'.1 sd hsd

theorem initializeSchema_empty_categories (now : Nat) :
    (initializeSchema now emptyShard).categories = defaultCategorySeeds.map (seedRow now) := by
  unfold initializeSchema
  rw [ensureIndex_categories, ensureIndex_categories, ensureIndex_categories,
    ensureIndex_categories,
    foldl_seed_fresh now defaultCategorySeeds _ ?_ (by decide),
    ensureTable_categories, ensureTable_categories]
  · simp [emptyShard]
  · intro seed _ c hc
    rw [ensureTable_categories, ensureTable_categories] at hc
    simp [emptyShard] at hc

theorem initializeSchema_transactions (now : Nat) (s : Shard) :
    (initializeSchema now s).transactions = s.transactions := by
  unfold initializeSchema
  rw [ensureIndex_transactions, ensureIndex_transactions, ensureIndex_transactions,
    ensureIndex_transactions, foldl_seed_transactions, ensureTable_transactions,
    ensureTable_transactions]

theorem initializeSchema_mem_categories {s : Shard} {c : Category}
    (h : c ∈ s.categories) (now : Nat) : c ∈ (initializeSchema now s).categories := by
  unfold initializeSchema
  rw [ensureIndex_categories, ensureIndex_categories, ensureIndex_categories,
    ensureIndex_categories]
  exact foldl_seed_mem_sub now _ _ _ (by rw [ensureTable_categories, ensureTable_categories]; exact h)

theorem initializeSchema_schemaPresent (now : Nat) (s : Shard) :
    schemaPresent (initializeSchema now s) := by
  unfold initializeSchema schemaPresent
  refine ⟨?_, ?_, ?_, ?_, ?_, ?_, ?_⟩
  · rw [ensureIndex_tables, ensureIndex_tables, ensureIndex_tables, ensureIndex_tables,
      foldl_seed_tables]
    exact ensureTable_mem_sub (ensureTable_mem s "categories") "transactions"
  · rw [ensureIndex_tables, ensureIndex_tables, ensureIndex_tables, ensureIndex_tables,
      foldl_seed_tables]
    exact ensureTable_mem _ "transactions"
  · intro seed hseed
    rw [ensureIndex_categories, ensureIndex_categories, ensureIndex_categories,
      ensureIndex_categories]
    exact foldl_seed_ids_present now _ _ seed hseed
  · exact ensureIndex_mem_sub (ensureIndex_mem_sub (ensureIndex_mem_sub
      (ensureIndex_mem _ "idx_transactions_date") _) _) _
  · exact ensureIndex_mem_sub (ensureIndex_mem_sub (ensureIndex_mem _ "idx_transactions_type") _) _
  · exact ensureIndex_mem_sub (ensureIndex_mem _ "idx_transactions_category") _
  · exact ensureIndex_mem _ "idx_categories_type"

theorem initializeSchema_idem (n1 n2 : Nat) (s : Shard) :
    initializeSchema n1 (initializeSchema n2 s) = initializeSchema n2 s := by
  have hsp := initializeSchema_schemaPresent n2 s
  rcases hsp with ⟨ht1, ht2, hseeds, hi1, hi2, hi3, hi4⟩
  conv in initializeSchema n1 _ => rw [initializeSchema]
  rw [ensureTable_noop ht1, ensureTable_noop ht2, foldl_seed_noop n1 _ _ hseeds,
    ensureIndex_noop hi1, ensureIndex_noop hi2, ensureIndex_noop hi3, ensureIndex_noop hi4]


/-! ## Decimal rendering is injective (backup names embed the timestamp) -/

theorem natCharsAux_eq_digits :
    ∀ fuel n, 0 < n → n < fuel →
      natCharsAux fuel n = ((Nat.digits 10 n).map Nat.digitChar).reverse := by
  intro fuel
  induction fuel with
  | zero => intro n _ h; omega
  | succ fuel ih =>
    intro n hn hlt
    rw [natCharsAux]
    by_cases h10 : n < 10
    · rw [if_pos h10]
      rw [Nat.digits_def' (by norm_num) hn, Nat.mod_eq_of_lt h10,
        Nat.div_eq_of_lt h10]
      simp
    · rw [if_neg h10]
      have hdiv_pos : 0 < n / 10 := Nat.div_pos (by omega) (by norm_num)
      have hdiv_lt : n / 10 < fuel := by
        have := Nat.div_lt_self hn (by norm_num : (1 : Nat) < 10)
        omega
      rw [ih (n / 10) hdiv_pos hdiv_lt, Nat.digits_def' (by norm_num) hn]
      simp

theorem digitChar_injOn : ∀ d1, d1 < 10 → ∀ d2, d2 < 10 →
    Nat.digitChar d1 = Nat.digitChar d2 → d1 = d2 := by decide

theorem map_digitChar_inj :
    ∀ (l1 : List Nat), (∀ x ∈ l1, x < 10) → ∀ (l2 : List Nat), (∀ x ∈ l2, x < 10) →
      l1.map Nat.digitChar = l2.map Nat.digitChar → l1 = l2 := by
  intro l1
  induction l1 with
  | nil => intro _ l2 _ h; cases l2 <;> simp_all
  | cons a as ih =>
    intro h1 l2 h2 hmap
    cases l2 with
    | nil => simp at hmap
    | cons b bs =>
      simp only [List.map_cons, List.cons.injEq] at hmap
      have ha : a = b := digitChar_injOn a (h1 a (by simp)) b (h2 b (by simp)) hmap.1
      have hs : as = bs :=
        ih (fun x hx => h1 x (by simp [hx])) bs (fun x hx => h2 x (by simp [hx])) hmap.2
      rw [ha, hs]

theorem digits_lt_ten {n : Nat} : ∀ x ∈ Nat.digits 10 n, x < 10 :=
  fun _ hx => Nat.digits_lt_base (by norm_num) hx

theorem natChars_eq_digits {n : Nat} (hn : 0 < n) :
    natChars n = ((Nat.digits 10 n).map Nat.digitChar).reverse := by
  rw [natChars]
  exact natCharsAux_eq_digits (n + 1) n hn (by omega)

theorem natChars_pos_ne_zero_chars {n : Nat} (hn : 0 < n) : natChars n ≠ ['0'] := by
  intro h
  rw [natChars_eq_digits hn] at h
  have h' : (Nat.digits 10 n).map Nat.digitChar = ['0'] := by
    have := congrArg List.reverse h
    simpa using this
  have hd : Nat.digits 10 n = [0] := by
    have h0 : ([0] : List Nat).map Nat.digitChar = ['0'] := by decide
    exact map_digitChar_inj _ digits_lt_ten [0] (by simp) (by rw [h', h0])
  have h1 : Nat.ofDigits 10 (Nat.digits 10 n) = n := Nat.ofDigits_digits 10 n
  rw [hd] at h1
  have h2 : Nat.ofDigits 10 [0] = 0 := by simp [Nat.ofDigits]
  omega

theorem natChars_inj {m n : Nat} (h : natChars m = natChars n) : m = n := by
  have hzero : natChars 0 = ['0'] := rfl
  by_cases hm : m = 0 <;> by_cases hn : n = 0
  · omega
  · exfalso
    subst hm
    rw [hzero] at h
    exact natChars_pos_ne_zero_chars (Nat.pos_of_ne_zero hn) h.symm
  · exfalso
    subst hn
    rw [hzero] at h
    exact natChars_pos_ne_zero_chars (Nat.pos_of_ne_zero hm) h
  · rw [natChars_eq_digits (show 0 < m by omega), natChars_eq_digits (show 0 < n by omega)] at h
    have h' := List.reverse_injective h
    have hd : Nat.digits 10 m = Nat.digits 10 n :=
      map_digitChar_inj _ digits_lt_ten _ digits_lt_ten h'
    have := congrArg (Nat.ofDigits 10) hd
    rwa [Nat.ofDigits_digits, Nat.ofDigits_digits] at this

theorem natStr_inj {m n : Nat} (h : natStr m = natStr n) : m = n := by
  apply natChars_inj
  have := congrArg String.data h
  simpa [natStr] using this

theorem string_append_inj_right {p a b : String} (h : p ++ a = p ++ b) : a = b := by
  have hd := congrArg String.data h
  rw [String.data_append, String.data_append] at hd
  exact String.ext (List.append_cancel_left hd)

/-! ## Connection registry lemmas -/

theorem getConnectionF_clock (m : DBManager) (u y : Nat) (f : Bool) :
    (getConnectionF m u y f).1.clock = m.clock := by
  unfold getConnectionF
  cases hc : lookupKey (u, y) m.connections
  · dsimp only
    split <;> rfl
  · rfl

theorem getConnectionF_log_false (m : DBManager) (u y : Nat) :
    (getConnectionF m u y false).1.log = m.log := by
  unfold getConnectionF
  cases hc : lookupKey (u, y) m.connections <;> rfl

theorem getConnection_cached {m : DBManager} {u y h : Nat}
    (hc : lookupKey (u, y) m.connections = some h) : getConnection m u y = (m, h) := by
  unfold getConnection getConnectionF
  rw [hc]

theorem getConnectionF_uncached_handle {m : DBManager} {u y : Nat} {f : Bool}
    (hc : lookupKey (u, y) m.connections = none) :
    (getConnectionF m u y f).2 = m.nextHandle ∧
    (getConnectionF m u y f).1.nextHandle = m.nextHandle + 1 := by
  unfold getConnectionF
  rw [hc]
  dsimp only
  split <;> exact ⟨rfl, rfl⟩

theorem getConnectionF_lookup_self (m : DBManager) (u y : Nat) (f : Bool) :
    lookupKey (u, y) (getConnectionF m u y f).1.connections = some (getConnectionF m u y f).2 := by
  unfold getConnectionF
  cases hc : lookupKey (u, y) m.connections
  · dsimp only
    split <;> exact lookupKey_setKey_self _ _ _
  · exact hc

theorem getConnectionF_nextHandle_ge (m : DBManager) (u y : Nat) (f : Bool) :
    m.nextHandle ≤ (getConnectionF m u y f).1.nextHandle := by
  unfold getConnectionF
  cases hc : lookupKey (u, y) m.connections
  · dsimp only
    split <;> exact Nat.le_succ _
  · exact Nat.le_refl _

theorem getConnectionF_handleWF {m : DBManager} (hWF : HandleWF m) (u y : Nat) (f : Bool) :
    HandleWF (getConnectionF m u y f).1 ∧
    (getConnectionF m u y f).2 < (getConnectionF m u y f).1.nextHandle := by
  unfold getConnectionF
  cases hc : lookupKey (u, y) m.connections with
  | none =>
    dsimp only
    have hmem : ∀ e ∈ setKey (u, y) m.nextHandle m.connections, e.2 < m.nextHandle + 1 := by
      intro e he
      rcases mem_setKey he with h | h
      · rw [h]; exact Nat.lt_succ_self _
      · exact Nat.lt_succ_of_lt (hWF e h)
    split <;> exact ⟨hmem, Nat.lt_succ_self _⟩
  | some h =>
    refine ⟨hWF, ?_⟩
    exact hWF _ (lookupKey_mem hc)

theorem closeConnection_parts (m : DBManager) (u y : Nat) :
    (closeConnection m u y).nextHandle = m.nextHandle ∧
    (closeConnection m u y).disk = m.disk ∧
    (closeConnection m u y).clock = m.clock := by
  unfold closeConnection
  cases hc : lookupKey (u, y) m.connections <;> exact ⟨rfl, rfl, rfl⟩

theorem closeConnection_lookup_none (m : DBManager) (u y : Nat) :
    lookupKey (u, y) (closeConnection m u y).connections = none := by
  unfold closeConnection
  cases hc : lookupKey (u, y) m.connections
  · exact hc
  · exact lookupKey_removeKey_self _ _

theorem getConnectionF_disk_schema {m : DBManager} {u y : Nat}
    (hc : lookupKey (u, y) m.connections = none) :
    lookupKey (u, y) (getConnectionF m u y false).1.disk =
      some (initializeSchema m.clock ((lookupKey (u, y) m.disk).getD emptyShard)) := by
  unfold getConnectionF
  rw [hc]
  exact lookupKey_setKey_self _ _ _

theorem txnsOf_getConnectionF (m : DBManager) (u y : Nat) (f : Bool) (u2 y2 : Nat) :
    txnsOf (getConnectionF m u y f).1 u2 y2 = txnsOf m u2 y2 := by
  unfold getConnectionF
  cases hc : lookupKey (u, y) m.connections
  · dsimp only
    by_cases hk : (u2, y2) = (u, y)
    · have h1 : u2 = u := congrArg Prod.fst hk
      have h2 : y2 = y := congrArg Prod.snd hk
      subst h1
      subst h2
      cases f
      · simp [txnsOf, lookupKey_setKey_self, initializeSchema_transactions]
      · simp [txnsOf, lookupKey_setKey_self]
    · cases f
      · simp [txnsOf, lookupKey_setKey_ne _ _ _ _ hk]
      · simp [txnsOf, lookupKey_setKey_ne _ _ _ _ hk]
  · rfl

/-! ## Clock lemmas: only `backupDatabase` observes and advances the clock -/

theorem getConnection_clock (m : DBManager) (u y : Nat) :
    (getConnection m u y).1.clock = m.clock :=
  getConnectionF_clock m u y false

theorem createTransaction_clock (m : DBManager) (u : Nat) (amount : Option Rat)
    (date : Option Date) (ttype : Option String) (categoryId : Option Nat)
    (desc : Option String) :
    (createTransaction m u amount date ttype categoryId desc).1.clock = m.clock := by
  unfold createTransaction
  rcases date with _ | d
  · rfl
  · rcases ttype with _ | ty
    · rfl
    · rcases categoryId with _ | cid
      · rfl
      · dsimp only
        split
        · rfl
        · split
          · rfl
          · split
            · rfl
            · split
              · exact getConnection_clock m u d.year
              · exact getConnection_clock m u d.year

theorem updateTransaction_clock (m : DBManager) (u txnId : Nat) (amount : Option Rat)
    (date : Option Date) (ttype : Option String) (categoryId : Option Nat)
    (desc : Option String) :
    (updateTransaction m u txnId amount date ttype categoryId desc).1.clock = m.clock := by
  unfold updateTransaction
  rcases date with _ | d
  · rfl
  · rcases ttype with _ | ty
    · rfl
    · rcases categoryId with _ | cid
      · rfl
      · dsimp only
        split
        · rfl
        · split
          · rfl
          · split
            · exact getConnection_clock m u d.year
            · split
              · exact getConnection_clock m u d.year
              · split
                · exact getConnection_clock m u d.year
                · exact getConnection_clock m u d.year

theorem deleteTransaction_clock (m : DBManager) (u y txnId : Nat) :
    (deleteTransaction m u y txnId).1.clock = m.clock := by
  unfold deleteTransaction
  dsimp only
  split
  · exact getConnection_clock m u y
  · exact getConnection_clock m u y

theorem createCategoryRoute_clock (m : DBManager) (u y : Nat) (name ctype : Option String) :
    (createCategoryRoute m u y name ctype).1.clock = m.clock := by
  unfold createCategoryRoute
  dsimp only
  split
  · rfl
  · split
    · rfl
    · exact getConnection_clock m u y

theorem renameCategoryRoute_clock (m : DBManager) (u y catId : Nat) (name : Option String) :
    (renameCategoryRoute m u y catId name).1.clock = m.clock := by
  unfold renameCategoryRoute
  dsimp only
  split
  · rfl
  · exact getConnection_clock m u y

theorem deleteCategoryRoute_clock (m : DBManager) (u y catId : Nat) :
    (deleteCategoryRoute m u y catId).1.clock = m.clock :=
  getConnection_clock m u y

theorem backupDatabase_clock (m : DBManager) (u y : Nat) :
    (backupDatabase m u y).1.clock = m.clock + 1 := by
  unfold backupDatabase
  cases hc : lookupKey (u, y) m.disk <;> rfl

theorem applyOp_clock_mono (m : DBManager) (op : Op) : m.clock ≤ (applyOp m op).clock := by
  cases op with
  | getConn u y => exact le_of_eq (getConnection_clock m u y).symm
  | closeConn u y => exact le_of_eq (closeConnection_parts m u y).2.2.symm
  | closeAll => exact Nat.le_refl _
  | createTxn u a d ty c desc => exact le_of_eq (createTransaction_clock m u a d ty c desc).symm
  | updateTxn u i a d ty c desc =>
    exact le_of_eq (updateTransaction_clock m u i a d ty c desc).symm
  | deleteTxn u y i => exact le_of_eq (deleteTransaction_clock m u y i).symm
  | createCat u y n ty => exact le_of_eq (createCategoryRoute_clock m u y n ty).symm
  | renameCat u y i n => exact le_of_eq (renameCategoryRoute_clock m u y i n).symm
  | deleteCat u y i => exact le_of_eq (deleteCategoryRoute_clock m u y i).symm
  | backup u y =>
    rw [applyOp, backupDatabase_clock]
    exact Nat.le_succ _

theorem run_clock_mono (ops : List Op) : ∀ m : DBManager, m.clock ≤ (run m ops).clock := by
  induction ops with
  | nil => intro m; exact Nat.le_refl _
  | cons op ops ih =>
    intro m
    exact (applyOp_clock_mono m op).trans (ih (applyOp m op))

/-! ## Preservation of the sharding invariant -/

theorem invKey_of_inv {m : DBManager} (h : ShardYearInv m) (k : Nat × Nat) :
    ∀ t ∈ ((lookupKey k m.disk).getD emptyShard).transactions, t.date.year = k.2 := by
  cases hc : lookupKey k m.disk with
  | none => simp [emptyShard]
  | some sh =>
    rw [Option.getD_some]
    exact h (k, sh) (lookupKey_mem hc)

theorem inv_setKey {d : List ((Nat × Nat) × Shard)} {k : Nat × Nat} {sh : Shard}
    (hd : ∀ e ∈ d, ∀ t ∈ e.2.transactions, t.date.year = e.1.2)
    (hsh : ∀ t ∈ sh.transactions, t.date.year = k.2) :
    ∀ e ∈ setKey k sh d, ∀ t ∈ e.2.transactions, t.date.year = e.1.2 := by
  intro e he
  rcases mem_setKey he with h | h
  · rw [h]
    exact hsh
  · exact hd e h

theorem shardYearInv_getConnectionF {m : DBManager} (h : ShardYearInv m)
    (u y : Nat) (f : Bool) : ShardYearInv (getConnectionF m u y f).1 := by
  unfold getConnectionF
  cases hc : lookupKey (u, y) m.connections with
  | none =>
    dsimp only
    cases f
    · intro e he
      refine inv_setKey h ?_ e he
      rw [initializeSchema_transactions]
      exact invKey_of_inv h (u, y)
    · intro e he
      exact inv_setKey h (invKey_of_inv h (u, y)) e he
  | some h2 => exact h

theorem shardYearInv_getConnection {m : DBManager} (h : ShardYearInv m) (u y : Nat) :
    ShardYearInv (getConnection m u y).1 :=
  shardYearInv_getConnectionF h u y false

theorem renameCategory_transactions (s : Shard) (catId : Nat) (name : Option String)
    (now : Nat) : (renameCategory s catId name now).1.transactions = s.transactions := by
  unfold renameCategory
  dsimp only
  split
  · rfl
  · split
    · rfl
    · split <;> rfl

theorem deleteCategory_transactions (s : Shard) (catId : Nat) :
    (deleteCategory s catId).1.transactions = s.transactions := by
  unfold deleteCategory
  split
  · rfl
  · dsimp only
    split
    · rfl
    · split <;> rfl

theorem shardYearInv_createTransaction {m : DBManager} (h : ShardYearInv m)
    (u : Nat) (amount : Option Rat) (date : Option Date) (ttype : Option String)
    (categoryId : Option Nat) (desc : Option String) :
    ShardYearInv (createTransaction m u amount date ttype categoryId desc).1 := by
  unfold createTransaction
  rcases date with _ | d
  · exact h
  · rcases ttype with _ | ty
    · exact h
    · rcases categoryId with _ | cid
      · exact h
      · dsimp only
        have hm1 : ShardYearInv (getConnection m u d.year).1 := shardYearInv_getConnection h u d.year
        split
        · exact h
        · split
          · exact h
          · split
            · exact h
            · split
              · exact hm1
              · intro e he
                refine inv_setKey hm1 ?_ e he
                intro t ht
                rcases List.mem_append.mp ht with ht | ht
                · exact invKey_of_inv hm1 (u, d.year) t ht
                · rw [List.mem_singleton.mp ht]

theorem shardYearInv_updateTransaction {m : DBManager} (h : ShardYearInv m)
    (u txnId : Nat) (amount : Option Rat) (date : Option Date) (ttype : Option String)
    (categoryId : Option Nat) (desc : Option String) :
    ShardYearInv (updateTransaction m u txnId amount date ttype categoryId desc).1 := by
  unfold updateTransaction
  rcases date with _ | d
  · exact h
  · rcases ttype with _ | ty
    · exact h
    · rcases categoryId with _ | cid
      · exact h
      · dsimp only
        have hm1 : ShardYearInv (getConnection m u d.year).1 := shardYearInv_getConnection h u d.year
        have hset : ShardYearInv
            { (getConnection m u d.year).1 with
              disk := setKey (u, d.year)
                { ((lookupKey (u, d.year) (getConnection m u d.year).1.disk).getD emptyShard) with
                  transactions :=
                    ((lookupKey (u, d.year) (getConnection m u d.year).1.disk).getD
                        emptyShard).transactions.map (fun t =>
                      if t.id = txnId then
                        { t with amount := amount.getD 0, date := d, ttype := ty,
                                 category_id := cid, description := desc.getD "",
                                 updated_at := (getConnection m u d.year).1.clock }
                      else t) }
                (getConnection m u d.year).1.disk } := by
          intro e he
          refine inv_setKey hm1 ?_ e he
          intro t ht
          rcases List.mem_map.mp ht with ⟨t0, ht0, hteq⟩
          by_cases hid : t0.id = txnId
          · rw [← hteq, if_pos hid]
          · rw [← hteq, if_neg hid]
            exact invKey_of_inv hm1 (u, d.year) t0 ht0
        split
        · exact h
        · split
          · exact h
          · split
            · exact hm1
            · split
              · exact hset
              · split
                · exact hset
                · exact hset

theorem shardYearInv_deleteTransaction {m : DBManager} (h : ShardYearInv m)
    (u y txnId : Nat) : ShardYearInv (deleteTransaction m u y txnId).1 := by
  unfold deleteTransaction
  dsimp only
  have hm1 : ShardYearInv (getConnection m u y).1 := shardYearInv_getConnection h u y
  have hset : ∀ r : DeleteTxnResult, ShardYearInv
      ({ (getConnection m u y).1 with
         disk := setKey (u, y)
           { ((lookupKey (u, y) (getConnection m u y).1.disk).getD emptyShard) with
             transactions :=
               ((lookupKey (u, y) (getConnection m u y).1.disk).getD
                   emptyShard).transactions.filter (fun t => decide (t.id ≠ txnId)) }
           (getConnection m u y).1.disk }) := by
    intro _
    intro e he
    refine inv_setKey hm1 ?_ e he
    intro t ht
    exact invKey_of_inv hm1 (u, y) t (List.mem_filter.mp ht).1
  split
  · exact hset .notFound
  · exact hset .deleted

theorem shardYearInv_createCategoryRoute {m : DBManager} (h : ShardYearInv m)
    (u y : Nat) (name ctype : Option String) :
    ShardYearInv (createCategoryRoute m u y name ctype).1 := by
  unfold createCategoryRoute
  dsimp only
  split
  · exact h
  · split
    · exact h
    · have hm1 : ShardYearInv (getConnection m u y).1 := shardYearInv_getConnection h u y
      intro e he
      refine inv_setKey hm1 ?_ e he
      intro t ht
      exact invKey_of_inv hm1 (u, y) t ht

theorem shardYearInv_renameCategoryRoute {m : DBManager} (h : ShardYearInv m)
    (u y catId : Nat) (name : Option String) :
    ShardYearInv (renameCategoryRoute m u y catId name).1 := by
  unfold renameCategoryRoute
  dsimp only
  split
  · exact h
  · have hm1 : ShardYearInv (getConnection m u y).1 := shardYearInv_getConnection h u y
    intro e he
    refine inv_setKey hm1 ?_ e he
    rw [renameCategory_transactions]
    exact invKey_of_inv hm1 (u, y)

theorem shardYearInv_deleteCategoryRoute {m : DBManager} (h : ShardYearInv m)
    (u y catId : Nat) : ShardYearInv (deleteCategoryRoute m u y catId).1 := by
  unfold deleteCategoryRoute
  dsimp only
  have hm1 : ShardYearInv (getConnection m u y).1 := shardYearInv_getConnection h u y
  intro e he
  refine inv_setKey hm1 ?_ e he
  rw [deleteCategory_transactions]
  exact invKey_of_inv hm1 (u, y)

theorem shardYearInv_closeConnection {m : DBManager} (h : ShardYearInv m) (u y : Nat) :
    ShardYearInv (closeConnection m u y) := by
  unfold closeConnection
  cases hc : lookupKey (u, y) m.connections
  · exact h
  · exact h

theorem shardYearInv_backup {m : DBManager} (h : ShardYearInv m) (u y : Nat) :
    ShardYearInv (backupDatabase m u y).1 := by
  unfold backupDatabase
  cases hc : lookupKey (u, y) m.disk
  · exact h
  · exact h

theorem shardYearInv_applyOp {m : DBManager} (h : ShardYearInv m) (op : Op) :
    ShardYearInv (applyOp m op) := by
  cases op with
  | getConn u y => exact shardYearInv_getConnection h u y
  | closeConn u y => exact shardYearInv_closeConnection h u y
  | closeAll => exact h
  | createTxn u a d ty c desc => exact shardYearInv_createTransaction h u a d ty c desc
  | updateTxn u i a d ty c desc => exact shardYearInv_updateTransaction h u i a d ty c desc
  | deleteTxn u y i => exact shardYearInv_deleteTransaction h u y i
  | createCat u y n ty => exact shardYearInv_createCategoryRoute h u y n ty
  | renameCat u y i n => exact shardYearInv_renameCategoryRoute h u y i n
  | deleteCat u y i => exact shardYearInv_deleteCategoryRoute h u y i
  | backup u y => exact shardYearInv_backup h u y

theorem shardYearInv_run (ops : List Op) :
    ∀ m : DBManager, ShardYearInv m → ShardYearInv (run m ops) := by
  induction ops with
  | nil => intro m h; exact h
  | cons op ops ih =>
    intro m h
    exact ih (applyOp m op) (shardYearInv_applyOp h op)

theorem txnsOf_getConnection (m : DBManager) (u y u2 y2 : Nat) :
    txnsOf (getConnection m u y).1 u2 y2 = txnsOf m u2 y2 :=
  txnsOf_getConnectionF m u y false u2 y2

theorem backupFileName_inj_stamp {u y c1 c2 : Nat}
    (h : backupFileName u y c1 = backupFileName u y c2) : c1 = c2 :=
  natStr_inj (string_append_inj_right h)


theorem getConnection_uncached_handle {m : DBManager} {u y : Nat}
    (hc : lookupKey (u, y) m.connections = none) :
    (getConnection m u y).2 = m.nextHandle :=
  (getConnectionF_uncached_handle (f := false) hc).1

theorem getConnection_disk_schema {m : DBManager} {u y : Nat}
    (hc : lookupKey (u, y) m.connections = none) :
    lookupKey (u, y) (getConnection m u y).1.disk =
      some (initializeSchema m.clock ((lookupKey (u, y) m.disk).getD emptyShard)) :=
  getConnectionF_disk_schema hc

theorem getConnection_handle_lt {m : DBManager} (hWF : HandleWF m) (u y : Nat) :
    (getConnection m u y).2 < (getConnection m u y).1.nextHandle :=
  (getConnectionF_handleWF hWF u y false).2

theorem createTransaction_txnsOf_other (m : DBManager) (u : Nat) (amount : Option Rat)
    (d : Date) (ttype : Option String) (categoryId : Option Nat) (desc : Option String)
    (u2 y2 : Nat) (hne : (u2, y2) ≠ (u, d.year)) :
    txnsOf (createTransaction m u amount (some d) ttype categoryId desc).1 u2 y2 =
      txnsOf m u2 y2 := by
  unfold createTransaction
  rcases ttype with _ | ty
  · rfl
  rcases categoryId with _ | cid
  · rfl
  dsimp only
  split
  · rfl
  split
  · rfl
  split
  · rfl
  split
  · exact txnsOf_getConnectionF m u d.year false u2 y2
  · unfold txnsOf
    dsimp only
    rw [lookupKey_setKey_ne _ _ _ _ hne]
    exact txnsOf_getConnectionF m u d.year false u2 y2

theorem updateTransaction_txnsOf_other (m : DBManager) (u txnId : Nat) (amount : Option Rat)
    (d : Date) (ttype : Option String) (categoryId : Option Nat) (desc : Option String)
    (u2 y2 : Nat) (hne : (u2, y2) ≠ (u, d.year)) :
    txnsOf (updateTransaction m u txnId amount (some d) ttype categoryId desc).1 u2 y2 =
      txnsOf m u2 y2 := by
  unfold updateTransaction
  rcases ttype with _ | ty
  · rfl
  rcases categoryId with _ | cid
  · rfl
  dsimp only
  split
  · rfl
  split
  · rfl
  split
  · exact txnsOf_getConnectionF m u d.year false u2 y2
  · have hset : txnsOf
        { (getConnection m u d.year).1 with
          disk := setKey (u, d.year)
            { ((lookupKey (u, d.year) (getConnection m u d.year).1.disk).getD emptyShard) with
              transactions :=
                ((lookupKey (u, d.year) (getConnection m u d.year).1.disk).getD
                    emptyShard).transactions.map (fun t =>
                  if t.id = txnId then
                    { t with amount := amount.getD 0, date := d, ttype := ty,
                             category_id := cid, description := desc.getD "",
                             updated_at := (getConnection m u d.year).1.clock }
                  else t) }
            (getConnection m u d.year).1.disk } u2 y2 = txnsOf m u2 y2 := by
      unfold txnsOf
      dsimp only
      rw [lookupKey_setKey_ne _ _ _ _ hne]
      exact txnsOf_getConnectionF m u d.year false u2 y2
    split
    · exact hset
    · split
      · exact hset
      · exact hset

theorem createTransaction_success_shape (m : DBManager) (u : Nat) (amount : Option Rat)
    (d : Date) (ty : String) (cid : Nat) (desc : Option String) (row : TxnRow)
    (h : (createTransaction m u amount (some d) (some ty) (some cid) desc).2 = .created row) :
    ∃ t : Txn, t.date = d ∧
      txnsOf (createTransaction m u amount (some d) (some ty) (some cid) desc).1 u d.year =
        txnsOf m u d.year ++ [t] := by
  unfold createTransaction at h ⊢
  dsimp only at h ⊢
  by_cases h1 : amount.getD 0 = 0 ∨ ty = "" ∨ cid = 0
  · rw [if_pos h1] at h
    simp at h
  rw [if_neg h1] at h ⊢
  by_cases h2 : ¬ (ty = "income" ∨ ty = "expense")
  · rw [if_pos h2] at h
    simp at h
  rw [if_neg h2] at h ⊢
  by_cases h3 : amount.getD 0 ≤ 0
  · rw [if_pos h3] at h
    simp at h
  rw [if_neg h3] at h ⊢
  cases hf : List.find? (fun c => decide (c.id = cid))
      ((lookupKey (u, d.year) (getConnection m u d.year).1.disk).getD emptyShard).categories with
  | none =>
    rw [hf] at h
    simp at h
  | some c =>
    dsimp only at h ⊢
    refine ⟨{ id := ((lookupKey (u, d.year) (getConnection m u d.year).1.disk).getD
                      emptyShard).next_transaction_id,
                amount := amount.getD 0, date := d, ttype := ty, category_id := cid,
                description := desc.getD "",
                created_at := (getConnection m u d.year).1.clock,
                updated_at := (getConnection m u d.year).1.clock }, rfl, ?_⟩
    unfold txnsOf
    rw [lookupKey_setKey_self, Option.getD_some]
    have hpres := txnsOf_getConnection m u d.year u d.year
    unfold txnsOf at hpres
    rw [hpres]

theorem find?_map_update (catId : Nat) (nm : String) (now : Nat) :
    ∀ (l : List Category) (c : Category),
      l.find? (fun x => x.id = catId) = some c →
      (l.map (fun x =>
          if x.id = catId then { x with name := nm, updated_at := now } else x)).find?
          (fun x => x.id = catId) = some { c with name := nm, updated_at := now } := by
  intro l
  induction l with
  | nil => intro c h; simp at h
  | cons x xs ih =>
    intro c h
    by_cases hx : x.id = catId
    · rw [List.find?_cons_of_pos _ (by simpa using hx)] at h
      cases h
      rw [List.map_cons, if_pos hx, List.find?_cons_of_pos _ (by simpa using hx)]
    · rw [List.find?_cons_of_neg _ (by simpa using hx)] at h
      rw [List.map_cons, if_neg hx, List.find?_cons_of_neg _ (by simpa using hx)]
      exact ih c h


theorem monthlyStats_lookup (s : Shard) (year : Nat) (mk : String) :
    List.lookup mk (monthlyStats s year) =
      if mk ∈ monthKeys s year then
        some
          (sumAmounts (s.transactions.filter (fun t =>
             decide (t.date.year = year) && decide (monthKey t.date = mk) &&
               (t.ttype == "income"))),
           sumAmounts (s.transactions.filter (fun t =>
             decide (t.date.year = year) && decide (monthKey t.date = mk) &&
               (t.ttype == "expense"))))
      else none := by
  unfold monthlyStats
  generalize monthKeys s year = keys
  induction keys with
  | nil => simp
  | cons k ks ih =>
    rw [List.map_cons]
    by_cases hk : mk = k
    · subst hk
      simp [List.lookup]
    · have hbeq : (mk == k) = false := beq_eq_false_iff_ne.mpr hk
      simp only [List.lookup, hbeq, List.mem_cons, ih]
      simp [hk]


theorem queryParam_pos {q : Option Nat} {dflt : Nat} (h : 0 < dflt) :
    0 < queryParam q dflt := by
  unfold queryParam
  rcases q with _ | n
  · exact h
  · cases n
    · exact h
    · exact Nat.succ_pos _


theorem backupDatabase_some_name {m : DBManager} {u y : Nat} {n : String}
    (h : (backupDatabase m u y).2 = some n) : n = backupFileName u y m.clock := by
  unfold backupDatabase at h
  cases hc : lookupKey (u, y) m.disk with
  | none =>
    rw [hc] at h
    simp at h
  | some sh =>
    rw [hc] at h
    exact (Option.some.inj h).symm

/-! ## Claim theorems -/

/-- C5: after the first bootstrap of a fresh shard the category table holds
exactly 14 rows — ids 1..7 of type income and ids 8..14 of type expense, all
`isDefault = true` — and running the bootstrap again on an already-seeded
shard is a no-op (in particular the count stays 14; the `IF NOT EXISTS` /
`INSERT OR IGNORE` forms mean the second run raises no duplicate-seed or
duplicate-index failure, which the model renders by `initializeSchema` being
total and idempotent). -/
theorem initializeSchema_seeding_spec :
    (∀ now : Nat,
      (initializeSchema now emptyShard).categories.length = 14 ∧
      (initializeSchema now emptyShard).categories.map (fun c => (c.id, c.ctype, c.is_default)) =
        [(1, "income", true), (2, "income", true), (3, "income", true), (4, "income", true),
         (5, "income", true), (6, "income", true), (7, "income", true),
         (8, "expense", true), (9, "expense", true), (10, "expense", true),
         (11, "expense", true), (12, "expense", true), (13, "expense", true),
         (14, "expense", true)]) ∧
    (∀ (n1 n2 : Nat) (s : Shard),
      initializeSchema n1 (initializeSchema n2 s) = initializeSchema n2 s) ∧
    (∀ n1 n2 : Nat,
      (initializeSchema n1 (initializeSchema n2 emptyShard)).categories.length = 14) := by
  refine ⟨fun now => ⟨?_, ?_⟩, initializeSchema_idem, fun n1 n2 => ?_⟩
  · rw [initializeSchema_empty_categories]
    rfl
  · rw [initializeSchema_empty_categories, List.map_map]
    rfl
  · rw [initializeSchema_idem, initializeSchema_empty_categories]
    rfl

/-- C1, as stated, is false of the code: `getConnection` caches the handle
before `initializeSchema` runs, and a schema failure reaches only the
`db.exec` callback, which logs it; at the concrete run below the registry
does map the shard key after the failed bootstrap and the caller receives
the handle with no error. -/
theorem getConnection_fault_cex :
    (getConnectionF initialManager 1 2024 true).2 = 1 ∧
    lookupKey (1, 2024) (getConnectionF initialManager 1 2024 true).1.connections = some 1 ∧
    (getConnectionF initialManager 1 2024 true).1.log =
      ["Error initializing database schema"] := by decide

/-- C1 (amended): when opening an uncached shard whose schema bootstrap
fails, `getConnection` still caches the new handle under the shard key and
returns it to the caller; the failure is only appended to the error log,
and no error is surfaced (the operation's result carries none). -/
theorem getConnectionF_fault_spec (m : DBManager) (u y : Nat)
    (hc : lookupKey (u, y) m.connections = none) :
    (getConnectionF m u y true).2 = m.nextHandle ∧
    lookupKey (u, y) (getConnectionF m u y true).1.connections = some m.nextHandle ∧
    (getConnectionF m u y true).1.log = m.log ++ ["Error initializing database schema"] := by
  unfold getConnectionF
  rw [hc]
  exact ⟨rfl, lookupKey_setKey_self _ _ _, rfl⟩

/-- C1 witness: the amended statement at a concrete fresh manager. -/
theorem getConnectionF_fault_spec_witness :
    lookupKey (1, 2024) (getConnectionF initialManager 1 2024 true).1.connections =
      some initialManager.nextHandle :=
  (getConnectionF_fault_spec initialManager 1 2024 (by decide)).2.1

/-- C4: for every tenant and year, a second `getConnection` with no
intervening close returns the identical cached handle (and leaves the state
untouched); after `closeConnection`, the next `getConnection` returns a
distinct new handle against a shard whose schema — both tables, the fourteen
seed rows, and the four indexes — is already present. -/
theorem getConnection_caching_spec (m : DBManager) (u y : Nat) (hWF : HandleWF m) :
    getConnection (getConnection m u y).1 u y =
      ((getConnection m u y).1, (getConnection m u y).2) ∧
    (getConnection (closeConnection (getConnection m u y).1 u y) u y).2 ≠
      (getConnection m u y).2 ∧
    schemaPresent ((lookupKey (u, y)
      (getConnection (closeConnection (getConnection m u y).1 u y) u y).1.disk).getD
        emptyShard) := by
  have hcache : lookupKey (u, y) (getConnection m u y).1.connections =
      some (getConnection m u y).2 := getConnectionF_lookup_self m u y false
  refine ⟨getConnection_cached hcache, ?_, ?_⟩
  · have hnone := closeConnection_lookup_none (getConnection m u y).1 u y
    have hlt : (getConnection m u y).2 < (getConnection m u y).1.nextHandle :=
      getConnection_handle_lt hWF u y
    have hnext := (closeConnection_parts (getConnection m u y).1 u y).1
    have hh2 := getConnection_uncached_handle hnone
    rw [hh2, hnext]
    omega
  · have hnone := closeConnection_lookup_none (getConnection m u y).1 u y
    have hdisk := getConnection_disk_schema hnone
    rw [hdisk, Option.getD_some]
    exact initializeSchema_schemaPresent _ _

/-- C4 witness: the caching statement at a concrete fresh manager. -/
theorem getConnection_caching_spec_witness :
    getConnection (getConnection initialManager 1 2024).1 1 2024 =
      ((getConnection initialManager 1 2024).1, (getConnection initialManager 1 2024).2) :=
  (getConnection_caching_spec initialManager 1 2024 (fun e he => by cases he)).1


/-- C2: every persisted transaction lives in the shard keyed by its own
date's calendar year: `POST /` and `PUT /:id` resolve the target shard from
the supplied date's year, touching no other shard's transactions; a
successful create appends a row dated `d` to shard `(tenant, d.year)`; in
every state reachable from process start, each row of shard `(tenant, Y)`
is dated in year `Y`; and the concrete 2024-03-15 creation is retrievable
from `(tenant, 2024)` only, with `categoryName = "Foods & Treats"`. -/
theorem transactions_live_in_date_year_shard :
    (∀ ops : List Op, ShardYearInv (run initialManager ops)) ∧
    (∀ (m : DBManager) (u : Nat) (amount : Option Rat) (d : Date) (ttype : Option String)
        (categoryId : Option Nat) (desc : Option String) (u2 y2 : Nat),
      (u2, y2) ≠ (u, d.year) →
      txnsOf (createTransaction m u amount (some d) ttype categoryId desc).1 u2 y2 =
        txnsOf m u2 y2) ∧
    (∀ (m : DBManager) (u txnId : Nat) (amount : Option Rat) (d : Date)
        (ttype : Option String) (categoryId : Option Nat) (desc : Option String) (u2 y2 : Nat),
      (u2, y2) ≠ (u, d.year) →
      txnsOf (updateTransaction m u txnId amount (some d) ttype categoryId desc).1 u2 y2 =
        txnsOf m u2 y2) ∧
    (∀ (m : DBManager) (u : Nat) (amount : Option Rat) (d : Date) (ty : String) (cid : Nat)
        (desc : Option String) (row : TxnRow),
      (createTransaction m u amount (some d) (some ty) (some cid) desc).2 = .created row →
      ∃ t : Txn, t.date = d ∧
        txnsOf (createTransaction m u amount (some d) (some ty) (some cid) desc).1 u d.year =
          txnsOf m u d.year ++ [t]) ∧
    ((createTransaction initialManager 1 (some 100) (some ⟨2024, 3, 15⟩) (some "expense")
        (some 9) none).2 =
      CreateTxnResult.created
        { id := 1, amount := 100, date := ⟨2024, 3, 15⟩, ttype := "expense",
          categoryId := 9, categoryName := some "Foods & Treats", description := "",
          createdAt := 1, updatedAt := 1 } ∧
     (txnsOf (createTransaction initialManager 1 (some 100) (some ⟨2024, 3, 15⟩)
         (some "expense") (some 9) none).1 1 2024).map (fun t => t.id) = [1] ∧
     txnsOf (createTransaction initialManager 1 (some 100) (some ⟨2024, 3, 15⟩)
         (some "expense") (some 9) none).1 1 2023 = [] ∧
     txnsOf (createTransaction initialManager 1 (some 100) (some ⟨2024, 3, 15⟩)
         (some "expense") (some 9) none).1 1 2025 = []) := by
  refine ⟨?_, ?_, ?_, ?_, ?_⟩
  · intro ops
    exact shardYearInv_run ops initialManager (fun e he => by cases he)
  · intro m u amount d ttype categoryId desc u2 y2 hne
    exact createTransaction_txnsOf_other m u amount d ttype categoryId desc u2 y2 hne
  · intro m u txnId amount d ttype categoryId desc u2 y2 hne
    exact updateTransaction_txnsOf_other m u txnId amount d ttype categoryId desc u2 y2 hne
  · intro m u amount d ty cid desc row h
    exact createTransaction_success_shape m u amount d ty cid desc row h
  · exact ⟨by decide, by decide, by decide, by decide⟩

/-- C2 witness: the shard-targeting statement at a concrete input. -/
theorem transactions_live_in_date_year_shard_witness :
    txnsOf (createTransaction initialManager 1 (some 100) (some ⟨2024, 3, 15⟩)
        (some "expense") (some 9) none).1 1 2023 = txnsOf initialManager 1 2023 :=
  transactions_live_in_date_year_shard.2.1 initialManager 1 (some 100) ⟨2024, 3, 15⟩
    (some "expense") (some 9) none 1 2023 (by decide)


/-- C6: every `POST /` validation failure — a missing (or JS-falsy) amount,
date, type, or categoryId; a type outside income/expense; a non-positive
amount; or a categoryId that does not resolve in the shard derived from the
date's year — produces a BadRequest, and a BadRequest result never inserts a
transaction row into any shard.  The first three checks run before the
connection even opens (the whole state is returned untouched); the category
check runs against the freshly resolved shard before the insert. -/
theorem createTransaction_validation_spec (m : DBManager) (u : Nat) (amount : Option Rat)
    (date : Option Date) (ttype : Option String) (categoryId : Option Nat)
    (desc : Option String) :
    ((amount.getD 0 = 0 ∨ date = none ∨ ttype.getD "" = "" ∨ categoryId.getD 0 = 0) →
      createTransaction m u amount date ttype categoryId desc =
        (m, .badRequest "Amount, date, type, and category are required")) ∧
    (∀ (d : Date) (ty : String) (cid : Nat),
      date = some d → ttype = some ty → categoryId = some cid →
      ¬ (amount.getD 0 = 0 ∨ ty = "" ∨ cid = 0) →
      ¬ (ty = "income" ∨ ty = "expense") →
      createTransaction m u amount date ttype categoryId desc =
        (m, .badRequest "Type must be income or expense")) ∧
    (∀ (d : Date) (ty : String) (cid : Nat),
      date = some d → ttype = some ty → categoryId = some cid →
      ¬ (amount.getD 0 = 0 ∨ ty = "" ∨ cid = 0) → (ty = "income" ∨ ty = "expense") →
      amount.getD 0 ≤ 0 →
      createTransaction m u amount date ttype categoryId desc =
        (m, .badRequest "Amount must be greater than 0")) ∧
    (∀ (d : Date) (ty : String) (cid : Nat),
      date = some d → ttype = some ty → categoryId = some cid →
      ¬ (amount.getD 0 = 0 ∨ ty = "" ∨ cid = 0) → (ty = "income" ∨ ty = "expense") →
      ¬ amount.getD 0 ≤ 0 →
      List.find? (fun c => c.id = cid)
        ((lookupKey (u, d.year) (getConnection m u d.year).1.disk).getD
          emptyShard).categories = none →
      createTransaction m u amount date ttype categoryId desc =
        ((getConnection m u d.year).1, .badRequest "Invalid category")) ∧
    ((∃ msg, (createTransaction m u amount date ttype categoryId desc).2 = .badRequest msg) →
      ∀ u2 y2 : Nat,
        txnsOf (createTransaction m u amount date ttype categoryId desc).1 u2 y2 =
          txnsOf m u2 y2) := by
  refine ⟨?_, ?_, ?_, ?_, ?_⟩
  · intro h
    rcases date with _ | d
    · rfl
    rcases ttype with _ | ty
    · rfl
    rcases categoryId with _ | cid
    · rfl
    have h' : amount.getD 0 = 0 ∨ ty = "" ∨ cid = 0 := by
      rcases h with h | h | h | h
      · exact Or.inl h
      · simp at h
      · exact Or.inr (Or.inl (by simpa using h))
      · exact Or.inr (Or.inr (by simpa using h))
    unfold createTransaction
    dsimp only
    rw [if_pos h']
  · intro d ty cid hd hty hcid h4 h5
    subst hd; subst hty; subst hcid
    unfold createTransaction
    dsimp only
    rw [if_neg h4, if_pos h5]
  · intro d ty cid hd hty hcid h4 h5 h6
    subst hd; subst hty; subst hcid
    unfold createTransaction
    dsimp only
    rw [if_neg h4, if_neg (not_not_intro h5), if_pos h6]
  · intro d ty cid hd hty hcid h4 h5 h6 hfind
    subst hd; subst hty; subst hcid
    unfold createTransaction
    dsimp only
    rw [if_neg h4, if_neg (not_not_intro h5), if_neg h6, hfind]
  · intro hbad u2 y2
    rcases date with _ | d
    · rfl
    rcases ttype with _ | ty
    · rfl
    rcases categoryId with _ | cid
    · rfl
    unfold createTransaction at hbad ⊢
    dsimp only at hbad ⊢
    by_cases h1 : amount.getD 0 = 0 ∨ ty = "" ∨ cid = 0
    · rw [if_pos h1]
    rw [if_neg h1] at hbad ⊢
    by_cases h2 : ¬ (ty = "income" ∨ ty = "expense")
    · rw [if_pos h2]
    rw [if_neg h2] at hbad ⊢
    by_cases h3 : amount.getD 0 ≤ 0
    · rw [if_pos h3]
    rw [if_neg h3] at hbad ⊢
    cases hf : List.find? (fun c => decide (c.id = cid))
        ((lookupKey (u, d.year) (getConnection m u d.year).1.disk).getD emptyShard).categories with
    | none =>
      exact txnsOf_getConnection m u d.year u2 y2
    | some c =>
      rcases hbad with ⟨msg, hmsg⟩
      rw [hf] at hmsg
      simp at hmsg

/-- C6 witness: the enum-check statement at a concrete input. -/
theorem createTransaction_validation_spec_witness :
    createTransaction initialManager 1 (some 100) (some ⟨2024, 3, 15⟩) (some "transfer")
        (some 9) none =
      (initialManager, .badRequest "Type must be income or expense") :=
  (createTransaction_validation_spec initialManager 1 (some 100) (some ⟨2024, 3, 15⟩)
      (some "transfer") (some 9) none).2.1 ⟨2024, 3, 15⟩ "transfer" 9 rfl rfl rfl
    (by decide) (by decide)



/-- C3: `DELETE /:id` on categories in a shard: an absent id yields NotFound;
a default category yields the default-protection conflict with no row deleted
(no transaction-count hypothesis — usage is irrelevant on that path); a
non-default category with N > 0 referencing transactions in the same shard
yields a conflict carrying exactly N with no row deleted; and a non-default
unreferenced category is deleted and absent from a subsequent `list`. -/
theorem deleteCategory_guard_spec (s : Shard) (catId : Nat) :
    (s.categories.find? (fun c => c.id = catId) = none →
      deleteCategory s catId = (s, .notFound)) ∧
    (∀ c : Category, s.categories.find? (fun c => c.id = catId) = some c →
      c.is_default = true → deleteCategory s catId = (s, .conflictDefault)) ∧
    (∀ c : Category, s.categories.find? (fun c => c.id = catId) = some c →
      c.is_default = false →
      0 < s.transactions.countP (fun t => t.category_id = catId) →
      deleteCategory s catId =
        (s, .conflictInUse (s.transactions.countP (fun t => t.category_id = catId)))) ∧
    (∀ c : Category, s.categories.find? (fun c => c.id = catId) = some c →
      c.is_default = false →
      s.transactions.countP (fun t => t.category_id = catId) = 0 →
      (deleteCategory s catId).2 = .deleted ∧
      (∀ row ∈ listCategories (deleteCategory s catId).1, row.id ≠ catId)) := by
  refine ⟨?_, ?_, ?_, ?_⟩
  · intro hf
    unfold deleteCategory
    rw [hf]
  · intro c hf hdef
    unfold deleteCategory
    rw [hf]
    dsimp only
    rw [if_pos hdef]
  · intro c hf hdef hcount
    unfold deleteCategory
    rw [hf]
    dsimp only
    rw [if_neg (by rw [hdef]; exact Bool.false_ne_true), if_pos hcount]
  · intro c hf hdef hcount
    unfold deleteCategory
    rw [hf]
    dsimp only
    rw [if_neg (by rw [hdef]; exact Bool.false_ne_true), if_neg (by omega)]
    refine ⟨rfl, ?_⟩
    intro row hrow
    unfold listCategories at hrow
    rcases List.mem_map.mp hrow with ⟨c2, hc2, hrow2⟩
    have hc2m : c2 ∈ s.categories.filter (fun c2 => decide (c2.id ≠ catId)) :=
      (List.perm_insertionSort catBefore _).mem_iff.mp hc2
    have hne : c2.id ≠ catId := by simpa using (List.mem_filter.mp hc2m).2
    rw [← hrow2]
    exact hne

/-- C3 witness: deleting a fresh non-default, unreferenced category succeeds. -/
theorem deleteCategory_guard_spec_witness :
    (deleteCategory catDemoShard 15).2 = DeleteCatResult.deleted :=
  ((deleteCategory_guard_spec catDemoShard 15).2.2.2 demoCategory (by decide) (by decide)
    (by decide)).1

/-- C10: `PUT /:id` on categories enforces no default-category protection:
for any category row found by id — the seeded default rows included, since no
`is_default` hypothesis appears — a rename with a non-empty name succeeds and
changes only `name` and `updated_at`, leaving id, type, `is_default`,
`created_at`, every other row, and the transaction table untouched. -/
theorem renameCategory_no_default_guard (s : Shard) (catId : Nat) (nm : String) (now : Nat)
    (c : Category) (hnm : nm ≠ "")
    (hfind : s.categories.find? (fun x => x.id = catId) = some c) :
    (renameCategory s catId (some nm) now).2 =
      .ok { id := c.id, name := nm, ctype := c.ctype, isDefault := c.is_default,
            createdAt := c.created_at, updatedAt := now } ∧
    (renameCategory s catId (some nm) now).1.transactions = s.transactions ∧
    (renameCategory s catId (some nm) now).1.categories =
      s.categories.map (fun x =>
        if x.id = catId then { x with name := nm, updated_at := now } else x) ∧
    (∀ x ∈ s.categories, x.id ≠ catId →
      x ∈ (renameCategory s catId (some nm) now).1.categories) := by
  unfold renameCategory
  simp only [Option.getD_some]
  rw [if_neg hnm]
  have hcnt : s.categories.countP (fun x => decide (x.id = catId)) ≠ 0 := by
    have hmem := List.mem_of_find?_eq_some hfind
    have hp := List.find?_some hfind
    intro h0
    exact absurd hp (by simpa using List.countP_eq_zero.mp h0 c hmem)
  rw [if_neg hcnt]
  rw [find?_map_update catId nm now s.categories c hfind]
  refine ⟨rfl, rfl, rfl, ?_⟩
  intro x hx hne
  exact List.mem_map.mpr ⟨x, hx, by rw [if_neg hne]⟩

/-- C10 witness: renaming the seeded default category id 1 succeeds. -/
theorem renameCategory_no_default_guard_witness :
    (renameCategory seededShard 1 (some "Renamed") 5).2 =
      RenameCatResult.ok
        { id := 1, name := "Renamed", ctype := "income", isDefault := true,
          createdAt := 0, updatedAt := 5 } :=
  (renameCategory_no_default_guard seededShard 1 "Renamed" 5 (seedRow 0 (1, "Monthly Fund", "income"))
    (by decide) (by decide)).1



/-- C7: `GET /stats` returns totalIncome and totalExpenses as the sums of
amounts over the shard filtered by type, transactionCount as the row count,
netBalance as their difference, and monthlyStats bucketing amount sums by
(year-month, type) restricted to the requested year with missing buckets
implicitly zero; on the shard holding one March-2024 income of 500 and one
March-2024 expense of 200, it yields 500 / 200 / 300 and
monthlyStats["2024-03"] = (500, 200). -/
theorem getStats_spec :
    (∀ (s : Shard) (year : Nat),
      (getStats s year).totalIncome =
        sumAmounts (s.transactions.filter (fun t => t.ttype == "income")) ∧
      (getStats s year).totalExpenses =
        sumAmounts (s.transactions.filter (fun t => t.ttype == "expense")) ∧
      (getStats s year).transactionCount = s.transactions.length ∧
      (getStats s year).netBalance =
        (getStats s year).totalIncome - (getStats s year).totalExpenses ∧
      (∀ mk : String,
        monthLookup (getStats s year) mk =
          (sumAmounts (s.transactions.filter (fun t =>
             decide (t.date.year = year) && decide (monthKey t.date = mk) &&
               (t.ttype == "income"))),
           sumAmounts (s.transactions.filter (fun t =>
             decide (t.date.year = year) && decide (monthKey t.date = mk) &&
               (t.ttype == "expense")))))) ∧
    ((getStats statsDemo 2024).totalIncome = 500 ∧
     (getStats statsDemo 2024).totalExpenses = 200 ∧
     (getStats statsDemo 2024).transactionCount = 2 ∧
     (getStats statsDemo 2024).netBalance = 300 ∧
     monthLookup (getStats statsDemo 2024) "2024-03" = (500, 200)) := by
  constructor
  · intro s year
    refine ⟨rfl, rfl, rfl, rfl, ?_⟩
    intro mk
    unfold monthLookup
    have hms : (getStats s year).monthlyStats = monthlyStats s year := rfl
    rw [hms, monthlyStats_lookup]
    by_cases hmem : mk ∈ monthKeys s year
    · rw [if_pos hmem]
      rfl
    · rw [if_neg hmem]
      have hempty : ∀ ty : String,
          s.transactions.filter (fun t =>
            decide (t.date.year = year) && decide (monthKey t.date = mk) &&
              (t.ttype == ty)) = [] := by
        intro ty
        rw [List.filter_eq_nil_iff]
        intro t ht hp
        simp only [Bool.and_eq_true, decide_eq_true_eq] at hp
        apply hmem
        unfold monthKeys
        apply (List.perm_insertionSort strLe _).mem_iff.mpr
        apply List.mem_dedup.mpr
        exact List.mem_map.mpr
          ⟨t, List.mem_filter.mpr ⟨ht, by simp [hp.1.1]⟩, hp.1.2⟩
      rw [hempty "income", hempty "expense"]
      rfl
  · refine ⟨?_, ?_, ?_, ?_, ?_⟩
    · show sumAmounts (statsDemo.transactions.filter (fun t => t.ttype == "income")) = 500
      simp +decide [sumAmounts, statsDemo, emptyShard]
    · show sumAmounts (statsDemo.transactions.filter (fun t => t.ttype == "expense")) = 200
      simp +decide [sumAmounts, statsDemo, emptyShard]
    · rfl
    · show sumAmounts (statsDemo.transactions.filter (fun t => t.ttype == "income")) -
          sumAmounts (statsDemo.transactions.filter (fun t => t.ttype == "expense")) = 300
      simp +decide [sumAmounts, statsDemo, emptyShard]
      norm_num
    · rw [monthLookup, show (getStats statsDemo 2024).monthlyStats =
          monthlyStats statsDemo 2024 from rfl, monthlyStats_lookup]
      rw [if_pos (by decide)]
      rw [Option.getD_some]
      refine Prod.ext ?_ ?_
      · show sumAmounts (statsDemo.transactions.filter (fun t =>
            decide (t.date.year = 2024) && decide (monthKey t.date = "2024-03") &&
              (t.ttype == "income"))) = 500
        simp +decide [sumAmounts, statsDemo, emptyShard]
      · show sumAmounts (statsDemo.transactions.filter (fun t =>
            decide (t.date.year = 2024) && decide (monthKey t.date = "2024-03") &&
              (t.ttype == "expense"))) = 200
        simp +decide [sumAmounts, statsDemo, emptyShard]



/-- C8: `GET /` on transactions orders rows by (date desc, id desc), skips
`(page − 1) × pageSize` of them and returns at most `pageSize`, with page and
size defaulting to 1 and 50 when unspecified or non-numeric (`parseInt || d`);
`totalPages` is the ceiling of `totalCount / pageSize` (characterised by the
two inequalities), `hasNextPage = (page < totalPages)`,
`hasPrevPage = (page > 1)`; over a shard with 5 transactions and size 2,
page 1 reports totalPages 3, a next page and no previous page, and page 3
returns one row with no next page. -/
theorem listTransactions_pagination_spec :
    (∀ (s : Shard) (pageQ limitQ : Option Nat),
      (listTransactions s pageQ limitQ).currentPage = queryParam pageQ 1 ∧
      (listTransactions s pageQ limitQ).totalCount = s.transactions.length ∧
      (listTransactions s pageQ limitQ).data =
        (((sortedTransactions s).drop
            ((queryParam pageQ 1 - 1) * queryParam limitQ 50)).take
          (queryParam limitQ 50)).map (joinRow s) ∧
      (listTransactions s pageQ limitQ).data.length ≤ queryParam limitQ 50 ∧
      (listTransactions s pageQ limitQ).totalCount ≤
        (listTransactions s pageQ limitQ).totalPages * queryParam limitQ 50 ∧
      (0 < (listTransactions s pageQ limitQ).totalCount →
        ((listTransactions s pageQ limitQ).totalPages - 1) * queryParam limitQ 50 <
          (listTransactions s pageQ limitQ).totalCount) ∧
      ((listTransactions s pageQ limitQ).hasNextPage = true ↔
        queryParam pageQ 1 < (listTransactions s pageQ limitQ).totalPages) ∧
      ((listTransactions s pageQ limitQ).hasPrevPage = true ↔ 1 < queryParam pageQ 1) ∧
      (listTransactions s pageQ limitQ).data.Pairwise (fun a b =>
        Date.lexLt b.date a.date ∨ (b.date = a.date ∧ b.id ≤ a.id)) ∧
      (sortedTransactions s).Perm s.transactions) ∧
    ((listTransactions pageDemo (some 1) (some 2)).totalPages = 3 ∧
     (listTransactions pageDemo (some 1) (some 2)).hasNextPage = true ∧
     (listTransactions pageDemo (some 1) (some 2)).hasPrevPage = false ∧
     (listTransactions pageDemo (some 3) (some 2)).data.length = 1 ∧
     (listTransactions pageDemo (some 3) (some 2)).hasNextPage = false ∧
     ((listTransactions pageDemo none none).data.map (fun r => r.id)) = [5, 4, 3, 2, 1]) := by
  constructor
  · intro s pageQ limitQ
    have hl : 0 < queryParam limitQ 50 := queryParam_pos (by omega)
    have hlen : (listTransactions s pageQ limitQ).data.length =
        min (queryParam limitQ 50)
          (((sortedTransactions s).drop
            ((queryParam pageQ 1 - 1) * queryParam limitQ 50)).length) := by
      simp [listTransactions, List.length_take]
    have hdm := Nat.div_add_mod (s.transactions.length + queryParam limitQ 50 - 1)
      (queryParam limitQ 50)
    have hmod := Nat.mod_lt (s.transactions.length + queryParam limitQ 50 - 1) hl
    have htp : (listTransactions s pageQ limitQ).totalPages =
        (s.transactions.length + queryParam limitQ 50 - 1) / queryParam limitQ 50 := rfl
    refine ⟨rfl, rfl, rfl, ?_, ?_, ?_, ?_, ?_, ?_, List.perm_insertionSort txnBefore _⟩
    · omega
    · rw [htp]
      show s.transactions.length ≤ _ * queryParam limitQ 50
      rw [Nat.mul_comm]
      omega
    · intro hn
      rw [htp]
      show (_ - 1) * queryParam limitQ 50 < s.transactions.length
      by_cases hq : (s.transactions.length + queryParam limitQ 50 - 1) /
          queryParam limitQ 50 = 0
      · rw [hq]
        simpa using hn
      · rw [Nat.sub_one_mul, Nat.mul_comm]
        have hge : queryParam limitQ 50 ≤ queryParam limitQ 50 *
            ((s.transactions.length + queryParam limitQ 50 - 1) / queryParam limitQ 50) :=
          Nat.le_mul_of_pos_right _ (Nat.pos_of_ne_zero hq)
        omega
    · simp [listTransactions]
    · simp [listTransactions]
    · have hsorted : List.Pairwise txnBefore (sortedTransactions s) :=
        List.sorted_insertionSort txnBefore s.transactions
      have hsub : ((((sortedTransactions s).drop
            ((queryParam pageQ 1 - 1) * queryParam limitQ 50)).take
          (queryParam limitQ 50))).Sublist (sortedTransactions s) :=
        (List.take_sublist _ _).trans (List.drop_sublist _ _)
      have hwin := hsorted.sublist hsub
      show (((((sortedTransactions s).drop
          ((queryParam pageQ 1 - 1) * queryParam limitQ 50)).take
          (queryParam limitQ 50))).map (joinRow s)).Pairwise _
      exact List.pairwise_map.mpr (hwin.imp (fun h => h))
  · exact ⟨by decide, by decide, by decide, by decide, by decide, by decide⟩

/-- C8 witness: the length bound at a concrete page request. -/
theorem listTransactions_pagination_spec_witness :
    (listTransactions pageDemo (some 3) (some 2)).data.length ≤ queryParam (some 2) 50 :=
  (listTransactions_pagination_spec.1 pageDemo (some 3) (some 2)).2.2.2.1

/-- C9: `backupDatabase` on a shard with no on-disk store returns none and
touches neither the store map nor the backups; on an existing store it
returns the timestamp-suffixed name, records a byte-identical copy of the
store under that name, leaves every store file unchanged, and any two backup
calls for the same shard — however many operations run in between — return
distinct file names, because the name embeds the strictly-advancing clock. -/
theorem backupDatabase_spec :
    (∀ (m : DBManager) (u y : Nat), lookupKey (u, y) m.disk = none →
      (backupDatabase m u y).2 = none ∧
      (backupDatabase m u y).1.disk = m.disk ∧
      (backupDatabase m u y).1.backups = m.backups) ∧
    (∀ (m : DBManager) (u y : Nat) (sh : Shard), lookupKey (u, y) m.disk = some sh →
      (backupDatabase m u y).2 = some (backupFileName u y m.clock) ∧
      (backupDatabase m u y).1.disk = m.disk ∧
      (backupFileName u y m.clock, sh) ∈ (backupDatabase m u y).1.backups) ∧
    (∀ (m : DBManager) (u y : Nat) (ops : List Op) (n1 n2 : String),
      (backupDatabase m u y).2 = some n1 →
      (backupDatabase (run (backupDatabase m u y).1 ops) u y).2 = some n2 →
      n1 ≠ n2) := by
  refine ⟨?_, ?_, ?_⟩
  · intro m u y hc
    unfold backupDatabase
    rw [hc]
    exact ⟨rfl, rfl, rfl⟩
  · intro m u y sh hc
    unfold backupDatabase
    rw [hc]
    exact ⟨rfl, rfl, by simp⟩
  · intro m u y ops n1 n2 h1 h2
    have hstamp : (run (backupDatabase m u y).1 ops).clock ≠ m.clock := by
      have hmono := run_clock_mono ops (backupDatabase m u y).1
      rw [backupDatabase_clock] at hmono
      omega
    rw [backupDatabase_some_name h1, backupDatabase_some_name h2]
    intro heq
    exact hstamp (backupFileName_inj_stamp heq.symm)


/-- C9 witness: backing up an existing on-disk store returns the
timestamp-suffixed name. -/
theorem backupDatabase_spec_witness :
    (backupDatabase (getConnection initialManager 1 2024).1 1 2024).2 =
      some (backupFileName 1 2024 (getConnection initialManager 1 2024).1.clock) :=
  (backupDatabase_spec.2.1 (getConnection initialManager 1 2024).1 1 2024
    (initializeSchema 1 emptyShard) (by decide)).1

end TrackMyMoney
